import Mathlib

set_option maxRecDepth 4000

/-!
# Verification of the InnoDB redo-log tool's MySQL reader core

Shallow embedding of the Go sources of `innodb-redolog-tool`
(`internal/reader` MySQL reader, `cmd/redolog-tool/main.go` driver and
MTR grouping pass) together with proofs about the embedded definitions.

Bytes are modelled as `Nat` (each intended `< 256`); multi-byte loads
carry the exact bit-arithmetic of Go's `encoding/binary` functions.
Stateful reader code becomes explicit state passing over `ReaderState`;
unbounded loops take a fuel parameter; fallible operations return
`Except`/`Option`.  Display-only strings built with `fmt.Sprintf` in the
Go code are abstracted into structured payload values (`RecData`): they
never influence offsets, positions or LSNs.
-/

instance exceptDecEq {e a : Type _} [DecidableEq e] [DecidableEq a] :
    DecidableEq (Except e a) := fun x y =>
  match x, y with
  | .ok v, .ok w =>
    if h : v = w then .isTrue (by rw [h]) else .isFalse (by simp [h])
  | .error v, .error w =>
    if h : v = w then .isTrue (by rw [h]) else .isFalse (by simp [h])
  | .ok _, .error _ => .isFalse (by simp)
  | .error _, .ok _ => .isFalse (by simp)

namespace RedoLog

/-! ## Byte-combination helpers (Go `encoding/binary`)

`binary.LittleEndian.Uint16(b) = uint16(b[0]) | uint16(b[1])<<8`, etc.
The big-endian variants mirror `binary.BigEndian`.
-/

def leUint16 (b0 b1 : Nat) : Nat := b0 ||| (b1 <<< 8)

def beUint16 (b0 b1 : Nat) : Nat := (b0 <<< 8) ||| b1

def leUint32 (b0 b1 b2 b3 : Nat) : Nat :=
  b0 ||| (b1 <<< 8) ||| (b2 <<< 16) ||| (b3 <<< 24)

def leUint64 (b0 b1 b2 b3 b4 b5 b6 b7 : Nat) : Nat :=
  b0 ||| (b1 <<< 8) ||| (b2 <<< 16) ||| (b3 <<< 24) |||
  (b4 <<< 32) ||| (b5 <<< 40) ||| (b6 <<< 48) ||| (b7 <<< 56)

def beUint64 (b0 b1 b2 b3 b4 b5 b6 b7 : Nat) : Nat :=
  (b0 <<< 56) ||| (b1 <<< 48) ||| (b2 <<< 40) ||| (b3 <<< 32) |||
  (b4 <<< 24) ||| (b5 <<< 16) ||| (b6 <<< 8) ||| b7

/-- List-indexed forms, reading at an offset of a byte list (out-of-range
reads yield 0; every use in the development is guarded by a length check,
mirroring Go slice bounds). -/
def leUint16At (l : List Nat) (i : Nat) : Nat :=
  leUint16 (l.getD i 0) (l.getD (i+1) 0)

def beUint16At (l : List Nat) (i : Nat) : Nat :=
  beUint16 (l.getD i 0) (l.getD (i+1) 0)

def leUint32At (l : List Nat) (i : Nat) : Nat :=
  leUint32 (l.getD i 0) (l.getD (i+1) 0) (l.getD (i+2) 0) (l.getD (i+3) 0)

def leUint64At (l : List Nat) (i : Nat) : Nat :=
  leUint64 (l.getD i 0) (l.getD (i+1) 0) (l.getD (i+2) 0) (l.getD (i+3) 0)
    (l.getD (i+4) 0) (l.getD (i+5) 0) (l.getD (i+6) 0) (l.getD (i+7) 0)

def beUint64At (l : List Nat) (i : Nat) : Nat :=
  beUint64 (l.getD i 0) (l.getD (i+1) 0) (l.getD (i+2) 0) (l.getD (i+3) 0)
    (l.getD (i+4) 0) (l.getD (i+5) 0) (l.getD (i+6) 0) (l.getD (i+7) 0)

/-! ## Format constants (from the reader source) -/

def OSFileLogBlockSize : Nat := 512
def LogBlockHdrSize : Nat := 12
def LogBlockTrlSize : Nat := 4
def LogBlockDataSize : Nat := OSFileLogBlockSize - LogBlockHdrSize - LogBlockTrlSize
def LogFileHdrSize : Nat := 4 * OSFileLogBlockSize
def LogCheckpoint1 : Nat := OSFileLogBlockSize
def LogCheckpoint2 : Nat := 3 * OSFileLogBlockSize

/-! ## Compressed integer codec

Embedding of `parseCompressedUint64` (`mach_parse_u64_much_compressed`
style).  Returns `(value, bytesRead)`; `bytesRead = 0` is the
insufficient-data report, exactly as in the Go function.
-/

def parseCompressedUint64 (data : List Nat) : Nat × Nat :=
  match data with
  | [] => (0, 0)
  | b0 :: rest =>
    if b0 < 0x80 then
      (b0, 1)
    else if b0 < 0xC0 then
      match rest with
      | b1 :: _ => (((b0 &&& 0x3F) <<< 8) ||| b1, 2)
      | _ => (0, 0)
    else if b0 < 0xE0 then
      match rest with
      | b1 :: b2 :: _ => (((b0 &&& 0x1F) <<< 16) ||| (b1 <<< 8) ||| b2, 3)
      | _ => (0, 0)
    else if b0 < 0xF0 then
      match rest with
      | b1 :: b2 :: b3 :: _ =>
        (((b0 &&& 0x0F) <<< 24) ||| (b1 <<< 16) ||| (b2 <<< 8) ||| b3, 4)
      | _ => (0, 0)
    else if b0 < 0xF8 then
      match rest with
      | b1 :: b2 :: b3 :: b4 :: _ =>
        (((b0 &&& 0x07) <<< 32) ||| (b1 <<< 24) ||| (b2 <<< 16) |||
          (b3 <<< 8) ||| b4, 5)
      | _ => (0, 0)
    else if b0 = 0xFF then
      match rest with
      | b1 :: b2 :: b3 :: b4 :: b5 :: b6 :: b7 :: b8 :: _ =>
        (beUint64 b1 b2 b3 b4 b5 b6 b7 b8, 9)
      | _ => (0, 0)
    else
      (b0, 1)

example : parseCompressedUint64 [0x00] = (0, 1) := by decide
example : parseCompressedUint64 [0x7F] = (127, 1) := by decide
example : parseCompressedUint64 [0x80, 0x80] = (128, 2) := by decide
example : parseCompressedUint64 [0xBF, 0xFF] = (16383, 2) := by decide
example : parseCompressedUint64 [0xC0, 0x40, 0x00] = (16384, 3) := by decide
example : parseCompressedUint64 [0xFF, 0, 0, 0, 0, 0, 0, 0, 0x2A] = (42, 9) := by decide
example : parseCompressedUint64 [0xC0, 0x40] = (0, 0) := by decide

/-! ## Reader state

Explicit-state embedding of `MySQLRedoLogReader`.  The OS file is a byte
list plus a cursor (`file.Seek`/`file.Read` semantics); `position` is the
reader's own `r.position` counter.  Timestamps (`baseTimestamp`) are
display-only and abstracted away.
-/

structure MySQLLogBlockHeader where
  hdrNo : Nat
  dataLen : Nat
  firstRecGroup : Nat
  epochNo : Nat
  checksum : Nat
deriving Repr, DecidableEq

structure MySQLCheckpoint where
  checkpointNo : Nat
  checkpointLSN : Nat
  offset : Nat
  bufSize : Nat
  checksum : Nat
  isValid : Bool
deriving Repr, DecidableEq

structure ReaderState where
  file : List Nat
  cursor : Nat
  fileOpen : Bool
  position : Nat
  blockData : List Nat
  dataOffset : Nat
  currentLSN : Nat
  baseLSN : Nat
  currentBlock : MySQLLogBlockHeader
  lastCheckpoint : Option MySQLCheckpoint
deriving Repr, DecidableEq

/-- Errors a read can produce.  `ioErr` mirrors the open-ended Go error
values (wrapped OS failures); the pure file model never constructs it,
but the driver loop must classify it. -/
inductive ReadErr where
  | eof
  | endOfValidLog
  | ioErr (msg : String)
  | fuelOut
deriving Repr, DecidableEq

/-- `r.file.Read(buf)` with `len(buf) = n`: returns up to `n` bytes from
the cursor and advances the cursor by the number returned. -/
def fileRead (s : ReaderState) (n : Nat) : List Nat × ReaderState :=
  let bytes := (s.file.drop s.cursor).take n
  (bytes, { s with cursor := s.cursor + bytes.length })

/-- Fresh reader as produced by `NewMySQLRedoLogReader` + `Open`:
`blockData` is a 496-byte zero scratch buffer, offsets start at 0. -/
def openReader (file : List Nat) : ReaderState :=
  { file := file
    cursor := 0
    fileOpen := true
    position := 0
    blockData := List.replicate LogBlockDataSize 0
    dataOffset := 0
    currentLSN := 0
    baseLSN := 0
    currentBlock := ⟨0, 0, 0, 0, 0⟩
    lastCheckpoint := none }

/-! ## Block loading (`readNextBlock`, `readBlockHeader`) -/

/-- The block-header parse of `readNextBlock` (its struct literal over
`blockBytes`): every field via `binary.LittleEndian`, the checksum from
the 4-byte trailer. -/
def parseBlockHeaderBytes (blockBytes : List Nat) : MySQLLogBlockHeader :=
  { hdrNo := leUint32At blockBytes 0
    dataLen := leUint16At blockBytes 4
    firstRecGroup := leUint16At blockBytes 6
    epochNo := leUint32At blockBytes 8
    checksum := leUint32At blockBytes (OSFileLogBlockSize - LogBlockTrlSize) }

/-- Embedding of `readNextBlock`: read one 512-byte block, parse its
header with `binary.LittleEndian`, detect end-of-valid-log on
`DataLen == 0`, clamp the data region to `[12, 508)`, reset the
intra-block offset and advance `currentLSN` by `DataLen`.  Checksum
validation is performed in Go but its result is ignored (the error is
swallowed), so it has no effect on the state. -/
def readNextBlock (s : ReaderState) : Except (ReadErr × ReaderState) ReaderState :=
  let (blockBytes, s1) := fileRead s OSFileLogBlockSize
  if blockBytes.length < OSFileLogBlockSize then
    .error (.eof, s1)
  else
    let s2 := { s1 with position := s1.position + OSFileLogBlockSize }
    let header := parseBlockHeaderBytes blockBytes
    let s3 := { s2 with currentBlock := header }
    if header.dataLen = 0 then
      .error (.endOfValidLog, s3)
    else
      let dataStart := LogBlockHdrSize
      let dataEnd :=
        if header.dataLen > OSFileLogBlockSize - LogBlockTrlSize then
          OSFileLogBlockSize - LogBlockTrlSize
        else header.dataLen
      let newBlockData :=
        if dataEnd > dataStart then (blockBytes.take dataEnd).drop dataStart
        else []
      .ok { s3 with
              blockData := newBlockData
              dataOffset := 0
              currentLSN := s3.currentLSN + header.dataLen }

/-- Embedding of `readBlockHeader`: read 12 bytes at the cursor and parse
them with `binary.LittleEndian` (trailer checksum left 0). -/
def readBlockHeader (s : ReaderState) :
    Except (ReadErr × ReaderState) (MySQLLogBlockHeader × ReaderState) :=
  let (headerBytes, s1) := fileRead s LogBlockHdrSize
  if headerBytes.length < LogBlockHdrSize then
    .error (.eof, s1)
  else
    let s2 := { s1 with position := s1.position + LogBlockHdrSize }
    .ok ({ hdrNo := leUint32At headerBytes 0
           dataLen := leUint16At headerBytes 4
           firstRecGroup := leUint16At headerBytes 6
           epochNo := leUint32At headerBytes 8
           checksum := 0 }, s2)

/-! ## Checkpoint discovery (`parseCheckpointBlock`, `findLatestCheckpoint`,
`ReadHeader`) -/

/-- Embedding of `parseCheckpointBlock`: `ReadAt` 512 bytes at `off`
(which errors when fewer than 512 bytes are available there), then parse
the little-endian checkpoint fields; valid iff `checkpointNo > 0`. -/
def parseCheckpointBlock (file : List Nat) (off : Nat) :
    Except String MySQLCheckpoint :=
  if file.length < off + OSFileLogBlockSize then
    .error "failed to read checkpoint block"
  else
    let d := file.drop off
    .ok { checkpointNo := leUint64At d 0
          checkpointLSN := leUint64At d 8
          offset := leUint64At d 16
          bufSize := leUint64At d 24
          checksum := leUint32At d 60
          isValid := decide (0 < leUint64At d 0) }

/-- Embedding of `findLatestCheckpoint`: parse both checkpoint blocks
(offsets 512 and 1536); error when both reads fail; among the readable,
valid ones pick the larger `checkpointNo` (checkpoint 2 wins only when
strictly larger); error when none is valid. -/
def findLatestCheckpoint (file : List Nat) : Except String MySQLCheckpoint :=
  let r1 := parseCheckpointBlock file LogCheckpoint1
  let r2 := parseCheckpointBlock file LogCheckpoint2
  match r1, r2 with
  | .error _, .error _ => .error "failed to read both checkpoint blocks"
  | _, _ =>
    let latest1 : Option MySQLCheckpoint :=
      match r1 with
      | .ok c1 => if c1.isValid then some c1 else none
      | .error _ => none
    let latest2 : Option MySQLCheckpoint :=
      match r2 with
      | .ok c2 =>
        if c2.isValid then
          match latest1 with
          | none => some c2
          | some l => if c2.checkpointNo > l.checkpointNo then some c2 else some l
        else latest1
      | .error _ => latest1
    match latest2 with
    | some l => .ok l
    | none => .error "no valid checkpoint found in file header"

/-- Header record returned by `ReadHeader` (timestamp abstracted). -/
structure RedoLogHeaderM where
  logGroupID : Nat
  startLSN : Nat
  fileNo : Nat
  lastCheckpoint : Nat
  format : Nat
deriving Repr, DecidableEq

/-- Embedding of `ReadHeader`.  On a found checkpoint: seed
`baseLSN`/`currentLSN` with the checkpoint LSN, seek to the checkpoint
offset clamped to at least `LogFileHdrSize` — and then unconditionally
reset the file position to `LogFileHdrSize` (2048) before returning.  On
no valid checkpoint: fall back to `LogFileHdrSize` for both LSN seed and
position, emit a warning and continue. -/
def ReadHeader (s : ReaderState) :
    Except String (RedoLogHeaderM × ReaderState) :=
  match findLatestCheckpoint s.file with
  | .error _ =>
    let s1 := { s with
                  baseLSN := LogFileHdrSize
                  currentLSN := LogFileHdrSize
                  cursor := LogFileHdrSize
                  position := LogFileHdrSize }
    let header : RedoLogHeaderM :=
      { logGroupID := 1, startLSN := s1.baseLSN, fileNo := 1
        lastCheckpoint := 0, format := 2 }
    let s2 := { s1 with cursor := LogFileHdrSize, position := LogFileHdrSize }
    .ok (header, s2)
  | .ok cp =>
    let s1 := { s with
                  lastCheckpoint := some cp
                  baseLSN := cp.checkpointLSN
                  currentLSN := cp.checkpointLSN }
    let startOffset := if cp.offset < LogFileHdrSize then LogFileHdrSize else cp.offset
    let s2 := { s1 with cursor := startOffset, position := startOffset }
    let header : RedoLogHeaderM :=
      { logGroupID := cp.checkpointNo, startLSN := cp.checkpointLSN, fileNo := 1
        lastCheckpoint := 0, format := 2 }
    let s3 := { s2 with cursor := LogFileHdrSize, position := LogFileHdrSize }
    .ok (header, s3)

/-! ## Record data model

`types.LogRecord`, with the display-only `Data` string replaced by a
structured payload (`RecData`) carrying the numeric fields the Go code
formats into the string; timestamps are abstracted.  For the
`REC_INSERT_8027` case the Go code sets `Length` to the length of the
formatted display string; that quantity is display-derived and not
modelled (the embedding stores 0 there). -/

structure Insert8027 where
  parsedOk : Bool
  spaceID : Nat
  pageNo : Nat
deriving Repr, DecidableEq

inductive RecData where
  | noData
  | rawType (t : Nat)
  | byteWrite (offset value : Nat)
  | dynMeta (tableId version metadataLen : Nat)
  | dynMetaFailed
  | insert8027 (info : Insert8027)
  | updDel (space page : Nat) (extra : List Nat)
  | updDelShort (space page : Nat)
  | mlogString (offset len : Nat) (payload : List Nat)
  | mlogStringBad (offset len : Nat) (payload : List Nat)
  | mlogStringHdrOnly (offset len : Nat)
deriving Repr, DecidableEq

structure LogRecordM where
  type : Nat
  length : Nat
  lsn : Nat
  transactionID : Nat
  tableID : Nat
  spaceID : Nat
  pageNo : Nat
  data : RecData
  checksum : Nat
  multiRecordGroup : Nat
  isGroupStart : Bool
  isGroupEnd : Bool
deriving Repr, DecidableEq

/-- The generic record assembly at the end of `parseValidRecord`:
`LSN = r.position + r.dataOffset` (state after parsing), checksum from
the current block, group fields zeroed for the post-pass. -/
def mkGeneric (t len : Nat) (d : RecData) (spaceID pageNo : Nat)
    (s : ReaderState) : LogRecordM :=
  { type := t
    length := len
    lsn := s.position + s.dataOffset
    transactionID := 0
    tableID := 0
    spaceID := spaceID
    pageNo := pageNo
    data := d
    checksum := s.currentBlock.checksum
    multiRecordGroup := 0
    isGroupStart := false
    isGroupEnd := false }

/-! ## Cross-block reads (`readDataAcrossBlocks`) -/

/-- Loop of `readDataAcrossBlocks`.  `fuel` only bounds the iteration
count of the Go `for` loop (which terminates because the file cursor
advances 512 bytes per loaded block); running out of fuel yields the
artificial `fuelOut` error, which no Go behaviour corresponds to.
A failing `readNextBlock` is wrapped by the Go code with
`"failed to read next block for cross-block data: %w"`, preserving the
inner error's message; the embedding propagates the inner error. -/
def readDataAcrossBlocksLoop (fuel remaining : Nat) (acc : List Nat)
    (s : ReaderState) : Except (ReadErr × ReaderState) (List Nat × ReaderState) :=
  match fuel with
  | 0 => .error (.fuelOut, s)
  | fuel + 1 =>
    if remaining = 0 then .ok (acc, s)
    else
      let available := s.blockData.length - s.dataOffset
      if available = 0 then
        match readNextBlock s with
        | .error es => .error es
        | .ok s' => readDataAcrossBlocksLoop fuel remaining acc s'
      else
        let toRead := min remaining available
        let chunk := (s.blockData.take (s.dataOffset + toRead)).drop s.dataOffset
        readDataAcrossBlocksLoop fuel (remaining - toRead) (acc ++ chunk)
          { s with dataOffset := s.dataOffset + toRead }

/-- Embedding of `readDataAcrossBlocks` (`length <= 0` returns `nil, nil`). -/
def readDataAcrossBlocks (fuel length : Nat) (s : ReaderState) :
    Except (ReadErr × ReaderState) (List Nat × ReaderState) :=
  if length = 0 then .ok ([], s)
  else readDataAcrossBlocksLoop fuel length [] s

/-! ## `REC_INSERT_8027` helpers -/

/-- The per-field loop of `parseIndexInfo8027`:
`for i := 0; i < fieldCount && off+2 <= len; i++ { off += 2 }`. -/
def advanceFieldDescs : Nat → ReaderState → ReaderState
  | 0, s => s
  | Nat.succ k, s =>
    if s.dataOffset + 2 ≤ s.blockData.length then
      advanceFieldDescs k { s with dataOffset := s.dataOffset + 2 }
    else s

/-- Embedding of `parseIndexInfo8027` (the produced display string is
dropped; only the offset advances matter). -/
def parseIndexInfo8027 (s : ReaderState) : ReaderState :=
  if s.dataOffset + 2 > s.blockData.length then s
  else
    let nFields := leUint16At s.blockData s.dataOffset
    let s1 := { s with dataOffset := s.dataOffset + 2 }
    let hasInstantCols := nFields &&& 0x8000 ≠ 0
    let actualNFields := nFields &&& 0x7FFF
    let step2 : ReaderState × Nat :=
      if hasInstantCols then
        if s1.dataOffset + 2 ≤ s1.blockData.length then
          let s1a := { s1 with dataOffset := s1.dataOffset + 2 }
          if s1a.dataOffset + 2 ≤ s1a.blockData.length then
            (⟨{ s1a with dataOffset := s1a.dataOffset + 2 },
              leUint16At s1a.blockData s1a.dataOffset⟩)
          else (s1a, actualNFields)
        else (s1, actualNFields)
      else (s1, actualNFields)
    let s2 := step2.1
    let s3 :=
      if s2.dataOffset + 2 ≤ s2.blockData.length then
        { s2 with dataOffset := s2.dataOffset + 2 }
      else s2
    let fieldCount := min step2.2 50
    advanceFieldDescs fieldCount s3

/-- The guarded fixed-width advance pattern
`if r.dataOffset+k <= len(r.blockData) { ...; r.dataOffset += k }`. -/
def bumpIfLe (k : Nat) (s : ReaderState) : ReaderState :=
  if s.dataOffset + k ≤ s.blockData.length then
    { s with dataOffset := s.dataOffset + k }
  else s

/-- The guarded compressed-integer advance pattern
`v, n := parseCompressedUint64(...); if n > 0 { r.dataOffset += n }`. -/
def advCompressed (s : ReaderState) : ReaderState :=
  let v := parseCompressedUint64 (s.blockData.drop s.dataOffset)
  if v.2 > 0 then { s with dataOffset := s.dataOffset + v.2 } else s

/-- A cross-block read whose error the caller swallows (it only logs
into the display string): the state advances either way. -/
def swallowRead (fuel n : Nat) (s : ReaderState) : ReaderState :=
  match readDataAcrossBlocks fuel n s with
  | .ok r => r.2
  | .error e => e.2

/-- Embedding of `parseRecordData8027`: optional `cursor_offset` (2
bytes), compressed `end_seg_len` (failure returns early), an optional
info-bits/origin-offset/mismatch-index group when `end_seg_len` is odd,
then `end_seg_len >> 1` payload bytes via the cross-block path whose
error is swallowed (the display string records it; the state keeps any
partial advance). -/
def parseRecordData8027 (fuel : Nat) (s : ReaderState) : ReaderState :=
  let s1 := bumpIfLe 2 s
  let es := parseCompressedUint64 (s1.blockData.drop s1.dataOffset)
  if es.2 = 0 then s1
  else
    let endSegLen := es.1
    let s2 := { s1 with dataOffset := s1.dataOffset + es.2 }
    let s3 :=
      if endSegLen &&& 1 ≠ 0 then
        advCompressed (advCompressed (bumpIfLe 1 s2))
      else s2
    let actualDataLen := endSegLen >>> 1
    if actualDataLen > 0 then swallowRead fuel actualDataLen s3
    else s3

/-- Embedding of `parseMLOG_REC_INSERT_8027`: compressed `space_id` and
`page_no` (early return on failure), then index info and record data.
The trailing hex/field-heuristic step only reads bytes and is dropped. -/
def parseMLOG_REC_INSERT_8027 (fuel : Nat) (s : ReaderState) :
    Insert8027 × ReaderState :=
  let sv := parseCompressedUint64 (s.blockData.drop s.dataOffset)
  if sv.2 = 0 then (⟨false, 0, 0⟩, s)
  else
    let s1 := { s with dataOffset := s.dataOffset + sv.2 }
    let pv := parseCompressedUint64 (s1.blockData.drop s1.dataOffset)
    if pv.2 = 0 then (⟨false, sv.1, 0⟩, s1)
    else
      let s2 := { s1 with dataOffset := s1.dataOffset + pv.2 }
      let s3 := parseIndexInfo8027 s2
      let s4 := parseRecordData8027 fuel s3
      (⟨true, sv.1, pv.1⟩, s4)

/-! ## Per-kind record parsing (`parseValidRecord`) -/

/-- Switch case `1, 2, 4, 8` of `parseValidRecord`
(`mlog_parse_nbytes` shape: `offset(2 LE) + value(4 LE)`). -/
def parseNBytes (recordType : Nat) (s : ReaderState) : LogRecordM × ReaderState :=
  if s.blockData.length - s.dataOffset ≥ 6 ∧ s.dataOffset + 6 ≤ s.blockData.length then
    let off16 := leUint16At s.blockData s.dataOffset
    let value := leUint32At s.blockData (s.dataOffset + 2)
    let s' := { s with dataOffset := s.dataOffset + 6 }
    (mkGeneric recordType 7 (.byteWrite off16 value) 0 0 s', s')
  else (mkGeneric recordType 1 .noData 0 0 s, s)

/-- Switch case `62` (`MLOG_TABLE_DYNAMIC_META`) of `parseValidRecord`:
compressed table id and version, then up to 64 metadata bytes; on
success an early-return record carrying the table id with
`TransactionID = r.position` and zero checksum. -/
def parseDynMeta (s : ReaderState) : LogRecordM × ReaderState :=
  if s.blockData.length - s.dataOffset ≥ 2 ∧ s.dataOffset + 2 ≤ s.blockData.length then
    let tv := parseCompressedUint64 (s.blockData.drop s.dataOffset)
    if tv.2 > 0 then
      let s1 := { s with dataOffset := s.dataOffset + tv.2 }
      let vv := parseCompressedUint64 (s1.blockData.drop s1.dataOffset)
      if vv.2 > 0 then
        let s2 := { s1 with dataOffset := s1.dataOffset + vv.2 }
        let remaining := s2.blockData.length - s2.dataOffset
        if remaining > 0 then
          let maxMetadata := min remaining 64
          let s3 := { s2 with dataOffset := s2.dataOffset + maxMetadata }
          ({ type := 62
             length := 1 + tv.2 + vv.2 + maxMetadata
             lsn := s3.position + s3.dataOffset
             transactionID := s3.position
             tableID := tv.1
             spaceID := 0, pageNo := 0
             data := .dynMeta tv.1 vv.1 maxMetadata
             checksum := 0
             multiRecordGroup := 0
             isGroupStart := false, isGroupEnd := false }, s3)
        else
          ({ type := 62
             length := 1 + tv.2 + vv.2
             lsn := s2.position + s2.dataOffset
             transactionID := s2.position
             tableID := tv.1
             spaceID := 0, pageNo := 0
             data := .dynMeta tv.1 vv.1 0
             checksum := 0
             multiRecordGroup := 0
             isGroupStart := false, isGroupEnd := false }, s2)
      else (mkGeneric 62 (1 + tv.2) .dynMetaFailed 0 0 s1, s1)
    else (mkGeneric 62 1 .dynMetaFailed 0 0 s, s)
  else (mkGeneric 62 1 .noData 0 0 s, s)

/-- Switch case `13, 14` of `parseValidRecord`: u32 LE space id and page
number, then up to 128 remaining data-region bytes. -/
def parseUpdDel (recordType : Nat) (s : ReaderState) : LogRecordM × ReaderState :=
  if s.blockData.length - s.dataOffset ≥ 8 ∧ s.dataOffset + 8 ≤ s.blockData.length then
    let spaceID := leUint32At s.blockData s.dataOffset
    let pageNo := leUint32At s.blockData (s.dataOffset + 4)
    let s1 := { s with dataOffset := s.dataOffset + 8 }
    let remainingAfter := s1.blockData.length - s1.dataOffset
    if remainingAfter > 0 then
      let extraDataLen := min remainingAfter 128
      if s1.dataOffset + extraDataLen ≤ s1.blockData.length then
        let extra := (s1.blockData.take (s1.dataOffset + extraDataLen)).drop s1.dataOffset
        let s2 := { s1 with dataOffset := s1.dataOffset + extraDataLen }
        (mkGeneric recordType (9 + extraDataLen) (.updDel spaceID pageNo extra)
          spaceID pageNo s2, s2)
      else
        (mkGeneric recordType 9 (.updDelShort spaceID pageNo) spaceID pageNo s1, s1)
    else
      (mkGeneric recordType 9 (.updDelShort spaceID pageNo) spaceID pageNo s1, s1)
  else (mkGeneric recordType 1 .noData 0 0 s, s)

/-- The `default` switch arm of `parseValidRecord`
(`mlog_parse_string` shape: `offset(2 LE) + len(2 LE) + data`, with the
64-byte salvage path when the length is implausible). -/
def parseMlogString (recordType : Nat) (s : ReaderState) :
    LogRecordM × ReaderState :=
  if s.blockData.length - s.dataOffset ≥ 4 ∧ s.dataOffset + 4 ≤ s.blockData.length then
    let off16 := leUint16At s.blockData s.dataOffset
    let len16 := leUint16At s.blockData (s.dataOffset + 2)
    let s1 := { s with dataOffset := s.dataOffset + 4 }
    let remainingAfter := s1.blockData.length - s1.dataOffset
    if len16 > 0 ∧ len16 ≤ remainingAfter ∧ len16 ≤ 256 ∧
        s1.dataOffset + len16 ≤ s1.blockData.length then
      let payload := (s1.blockData.take (s1.dataOffset + len16)).drop s1.dataOffset
      let s2 := { s1 with dataOffset := s1.dataOffset + len16 }
      (mkGeneric recordType (5 + len16) (.mlogString off16 len16 payload) 0 0 s2, s2)
    else
      let maxRead := min remainingAfter 64
      if maxRead > 0 ∧ s1.dataOffset + maxRead ≤ s1.blockData.length then
        let someData := (s1.blockData.take (s1.dataOffset + maxRead)).drop s1.dataOffset
        let s2 := { s1 with dataOffset := s1.dataOffset + maxRead }
        (mkGeneric recordType (5 + maxRead) (.mlogStringBad off16 len16 someData) 0 0 s2, s2)
      else
        (mkGeneric recordType 5 (.mlogStringHdrOnly off16 len16) 0 0 s1, s1)
  else (mkGeneric recordType 1 (.rawType recordType) 0 0 s, s)

/-- Embedding of `parseValidRecord` (the type byte has already been
consumed by `ReadRecord`): the outer `remainingData >= 4` gate and the
`switch` over the record type, dispatching to the per-kind arms;
`fuel` is only threaded into the cross-block path of case 9. -/
def parseValidRecord (fuel recordType : Nat) (s : ReaderState) :
    LogRecordM × ReaderState :=
  if s.blockData.length - s.dataOffset ≥ 4 then
    if recordType = 1 ∨ recordType = 2 ∨ recordType = 4 ∨ recordType = 8 then
      parseNBytes recordType s
    else if recordType = 62 then
      parseDynMeta s
    else if recordType = 9 then
      let iv := parseMLOG_REC_INSERT_8027 fuel s
      (mkGeneric 9 0 (.insert8027 iv.1) 0 0 iv.2, iv.2)
    else if recordType = 13 ∨ recordType = 14 then
      parseUpdDel recordType s
    else
      parseMlogString recordType s
  else (mkGeneric recordType 1 (.rawType recordType) 0 0 s, s)

/-! ## The record dispatcher (`ReadRecord`) -/

/-- The inner scan of `ReadRecord` over the current block: while at
least 2 bytes remain, a byte in `[1, 76]` is taken as the record type
(the offset advancing past it); anything else causes a one-byte skip.
`none` means the block is exhausted and the next one must be loaded. -/
def scanInBlockAux : Nat → ReaderState → Option (Nat × ReaderState)
  | 0, _ => none
  | Nat.succ k, s =>
    if s.dataOffset < s.blockData.length then
      if s.dataOffset + 2 > s.blockData.length then none
      else
        let t := s.blockData.getD s.dataOffset 0
        if t = 0 ∨ t > 76 then
          scanInBlockAux k { s with dataOffset := s.dataOffset + 1 }
        else some (t, { s with dataOffset := s.dataOffset + 1 })
    else none

/-- The scan loop runs while `dataOffset < blockData.length` and each
iteration advances `dataOffset`, so `blockData.length - dataOffset`
iterations suffice and the counter never runs out. -/
def scanInBlock (s : ReaderState) : Option (Nat × ReaderState) :=
  scanInBlockAux (s.blockData.length - s.dataOffset) s

/-- The `first_rec_group` jump of `ReadRecord` after a fresh block load:
if the header's `FirstRecGroup` is positive and `FirstRecGroup - 12`
lands inside the data region, the scan starts there. -/
def mtrJump (s1 : ReaderState) : ReaderState :=
  if s1.currentBlock.firstRecGroup > 0 then
    let mtrOffset : Int :=
      (s1.currentBlock.firstRecGroup : Int) - (LogBlockHdrSize : Int)
    if 0 ≤ mtrOffset ∧ mtrOffset < (s1.blockData.length : Int) then
      { s1 with dataOffset := mtrOffset.toNat }
    else s1
  else s1

/-- Embedding of `ReadRecord`'s outer loop.  `fuel` bounds the number of
loop iterations (terminating in Go because each pass either returns or
loads the next 512-byte block). -/
def readRecordFuel : Nat → ReaderState →
    Except (ReadErr × ReaderState) (LogRecordM × ReaderState)
  | 0, s => .error (.fuelOut, s)
  | fuel + 1, s =>
    if s.dataOffset ≥ s.blockData.length ∨ s.dataOffset = 0 then
      match readNextBlock s with
      | .error es => .error es
      | .ok s1 =>
        let s2 := mtrJump s1
        match scanInBlock s2 with
        | some ts => .ok (parseValidRecord fuel ts.1 ts.2)
        | none => readRecordFuel fuel { s2 with dataOffset := s2.blockData.length }
    else
      match scanInBlock s with
      | some ts => .ok (parseValidRecord fuel ts.1 ts.2)
      | none => readRecordFuel fuel { s with dataOffset := s.blockData.length }

/-! ## `IsEOF`, the driver loop and the MTR grouping pass -/

/-- Embedding of `IsEOF`: true for a never-opened reader; otherwise save
the position, probe-read one byte, and on success seek back. -/
def IsEOF (s : ReaderState) : Bool × ReaderState :=
  if s.fileOpen = false then (true, s)
  else
    let currentPos := s.cursor
    let pr := fileRead s 1
    if pr.1.length = 0 then (true, pr.2)
    else (false, { pr.2 with cursor := currentPos })

/-- The maximum-records safety cap of `loadRedoLogData`. -/
def maxRecords : Nat := 10000

/-- The record-collection loop of `loadRedoLogData`: read until the cap;
on a read error, stop cleanly when the reader is at EOF or the error is
the end-of-valid-log condition (the Go code matches the error message
`"end of valid log data"`, produced exactly by that condition), else
surface the error. -/
def loadLoop (fuel : Nat) : Nat → ReaderState → List LogRecordM →
    Except ReadErr (List LogRecordM)
  | 0, _, acc => .ok acc
  | Nat.succ countLeft, s, acc =>
    match readRecordFuel fuel s with
    | .ok rs => loadLoop fuel countLeft rs.2 (acc ++ [rs.1])
    | .error es =>
      if (IsEOF es.2).1 = true ∨ es.1 = .endOfValidLog then .ok acc
      else .error es.1

/-- `loadRedoLogData`'s loop started with `recordCount = 0`:
`countLeft = maxRecords - recordCount` counts the remaining capacity, so
`countLeft = 0` is exactly the `recordCount < maxRecords` guard failing. -/
def loadRecords (fuel : Nat) (s : ReaderState) : Except ReadErr (List LogRecordM) :=
  loadLoop fuel maxRecords s []

/-- Embedding of `detectMultiRecordGroups` as explicit state passing:
`pending` holds the records since the speculative group start (Go's
`groupStart` index), `gid` is `groupID`.  On a `MULTI_REC_END` (31) with
a pending group, the group gets the fresh id, its first record the
start flag and the marker the end flag; an orphan marker keeps group 0;
leftover pending records are flushed with group 0 at the end. -/
def mtrGo : List LogRecordM → List LogRecordM → Nat → List LogRecordM
  | [], pending, _ =>
    pending.map (fun r => { r with multiRecordGroup := 0 })
  | r :: rest, pending, gid =>
    if r.type = 31 then
      match pending with
      | [] => { r with multiRecordGroup := 0 } :: mtrGo rest [] gid
      | p :: ps =>
        ({ p with multiRecordGroup := gid + 1, isGroupStart := true } ::
          ps.map (fun q => { q with multiRecordGroup := gid + 1 })) ++
        ({ r with multiRecordGroup := gid + 1, isGroupEnd := true } ::
          mtrGo rest [] (gid + 1))
    else
      mtrGo rest (pending ++ [r]) gid

def detectMultiRecordGroups (records : List LogRecordM) : List LogRecordM :=
  mtrGo records [] 0

/-! ## Spec-side definition for the byte-write layout (refinement check)

`specByteWriteParse` follows the specification's words for byte-write
kinds, *not* the source: layout after the type byte is
`space_id (compressed) | page_no (compressed) | page_offset (u16 BE) |
value (1/2/4/8 bytes)`.  It exists to be compared with the source
embedding `parseValidRecord`. -/

structure SpecByteWrite where
  spaceID : Nat
  pageNo : Nat
  pageOffset : Nat
  value : List Nat
  consumed : Nat
deriving Repr, DecidableEq

def specByteWriteParse (kind : Nat) (l : List Nat) : Option SpecByteWrite :=
  let sv := parseCompressedUint64 l
  if sv.2 = 0 then none
  else
    let l1 := l.drop sv.2
    let pv := parseCompressedUint64 l1
    if pv.2 = 0 then none
    else
      let l2 := l1.drop pv.2
      if l2.length < 2 + kind then none
      else
        some { spaceID := sv.1
               pageNo := pv.1
               pageOffset := beUint16At l2 0
               value := (l2.drop 2).take kind
               consumed := sv.2 + pv.2 + 2 + kind }

/-! ## State invariant and iteration helpers -/

/-- The reader's standing invariant: the intra-block offset never passes
the end of the data region, and the data region of a block holds at most
`512 - 12 - 4 = 496` bytes.  It holds for a freshly opened reader and is
preserved by every operation. -/
def Inv (s : ReaderState) : Prop :=
  s.dataOffset ≤ s.blockData.length ∧ s.blockData.length ≤ LogBlockDataSize

instance (s : ReaderState) : Decidable (Inv s) := by unfold Inv; infer_instance

/-- The LSN cursor position a record is stamped with: `r.position +
r.dataOffset`. -/
def mu (s : ReaderState) : Nat := s.position + s.dataOffset

/-- Iterate `readNextBlock` `n` times, collecting each loaded block's
`data_length` (used to express the spec's "sum over consumed blocks"). -/
def consumeBlocks : Nat → ReaderState →
    Except (ReadErr × ReaderState) (ReaderState × List Nat)
  | 0, s => .ok (s, [])
  | Nat.succ n, s =>
    match readNextBlock s with
    | .error e => .error e
    | .ok s' =>
      match consumeBlocks n s' with
      | .ok r => .ok (r.1, s'.currentBlock.dataLen :: r.2)
      | .error e => .error e

/-! ## Concrete test fixtures (witness and counterexample inputs) -/

/-- One 512-byte block: header `data_length = 26`, `first_rec_group = 0`,
data region holding two 7-byte `MLOG_1BYTE` records. -/
def c6block : List Nat :=
  [0,0,0,0, 26,0, 0,0, 0,0,0,0] ++
  [1, 5,0, 1,2,3,4, 1, 6,0, 9,9,9,9] ++
  List.replicate 482 0 ++ [0,0,0,0]

def defaultRecord : LogRecordM :=
  { type := 0, length := 0, lsn := 0, transactionID := 0, tableID := 0,
    spaceID := 0, pageNo := 0, data := .noData, checksum := 0,
    multiRecordGroup := 0, isGroupStart := false, isGroupEnd := false }

/-- First and second `ReadRecord` results on `c6block`. -/
def c6step1 : LogRecordM × ReaderState :=
  (readRecordFuel 5 (openReader c6block)).toOption.getD
    (defaultRecord, openReader c6block)

def c6step2 : LogRecordM × ReaderState :=
  (readRecordFuel 5 c6step1.2).toOption.getD (defaultRecord, openReader c6block)

def leBytes8 (v : Nat) : List Nat :=
  [v % 256, (v >>> 8) % 256, (v >>> 16) % 256, (v >>> 24) % 256,
   (v >>> 32) % 256, (v >>> 40) % 256, (v >>> 48) % 256, (v >>> 56) % 256]

/-- A 512-byte checkpoint block with the given sequence number, LSN and
file offset (bufSize and checksum zero). -/
def cpBlock (no lsn off : Nat) : List Nat :=
  leBytes8 no ++ leBytes8 lsn ++ leBytes8 off ++ List.replicate (512 - 24) 0

/-- Scenario-D style file: checkpoint 1 `{no 7, lsn 1000000, offset
100000}`, checkpoint 2 `{no 9, lsn 1200000, offset 120000}`. -/
def scenDFile : List Nat :=
  List.replicate 512 0 ++ (cpBlock 7 1000000 100000 ++
    (List.replicate 512 0 ++ cpBlock 9 1200000 120000))

/-- A file whose first record-area block is all zeros: its
`data_length` is 0, so the first block load reports end-of-valid-log. -/
def zeroBlockFile : List Nat := List.replicate 512 0

/-- 2048 zero bytes: both checkpoint blocks parse but carry
`sequence_no = 0`. -/
def zeros2048 : List Nat := List.replicate 2048 0

/-- Record with a given type and all other fields zeroed, as the MySQL
reader hands records to the grouping pass. -/
def mkRec (t : Nat) : LogRecordM := { defaultRecord with type := t, length := 1 }

def defaultCheckpoint : MySQLCheckpoint :=
  { checkpointNo := 0, checkpointLSN := 0, offset := 0, bufSize := 0,
    checksum := 0, isValid := false }

def defaultHeaderM : RedoLogHeaderM :=
  { logGroupID := 0, startLSN := 0, fileNo := 0, lastCheckpoint := 0, format := 0 }

/-- State after loading the first block of `c6block`. -/
def c6afterBlock : ReaderState :=
  (readNextBlock (openReader c6block)).toOption.getD (openReader c6block)

/-- Result of `readBlockHeader` on a fresh `c6block` reader. -/
def c6hdrStep : MySQLLogBlockHeader × ReaderState :=
  (readBlockHeader (openReader c6block)).toOption.getD
    (⟨0, 0, 0, 0, 0⟩, openReader c6block)

/-- Scenario-D header + one 26-byte-data block at offset 2048. -/
def comboFile : List Nat := scenDFile ++ c6block

/-- The two scenario-D checkpoints as parsed. -/
def cp1lit : MySQLCheckpoint :=
  { checkpointNo := 7, checkpointLSN := 1000000, offset := 100000,
    bufSize := 0, checksum := 0, isValid := true }

def cp2lit : MySQLCheckpoint :=
  { checkpointNo := 9, checkpointLSN := 1200000, offset := 120000,
    bufSize := 0, checksum := 0, isValid := true }

/-- The header `ReadHeader` returns on the scenario-D checkpoints. -/
def scenDHeaderLit : RedoLogHeaderM :=
  { logGroupID := 9, startLSN := 1200000, fileNo := 1,
    lastCheckpoint := 0, format := 2 }

/-- Reader state after `ReadHeader` on a given file with the scenario-D
checkpoints. -/
def afterHeaderState (file : List Nat) : ReaderState :=
  { file := file
    cursor := LogFileHdrSize
    fileOpen := true
    position := LogFileHdrSize
    blockData := List.replicate LogBlockDataSize 0
    dataOffset := 0
    currentLSN := 1200000
    baseLSN := 1200000
    currentBlock := ⟨0, 0, 0, 0, 0⟩
    lastCheckpoint := some cp2lit }

/-- Reader state after additionally loading the `c6block` block appended
at offset 2048 of `comboFile`. -/
def comboBlock1Lit : ReaderState :=
  { file := comboFile
    cursor := 2560
    fileOpen := true
    position := 2560
    blockData := [1, 5, 0, 1, 2, 3, 4, 1, 6, 0, 9, 9, 9, 9]
    dataOffset := 0
    currentLSN := 1200026
    baseLSN := 1200000
    currentBlock := ⟨0, 26, 0, 0, 0⟩
    lastCheckpoint := some cp2lit }

/-- A block-data buffer whose bytes decode differently under the
spec's byte-write layout and the implemented one. -/
def byteWriteState : ReaderState :=
  { openReader [] with blockData := [5, 7, 0, 16, 42, 0, 0, 0] }

/-- The marking the grouping pass applies to a closed group's non-end
records: every record gets the group id, only the first additionally the
start flag. -/
def markStart (g : Nat) : List LogRecordM → List LogRecordM
  | [] => []
  | p :: ps =>
    { p with multiRecordGroup := g, isGroupStart := true } ::
      ps.map (fun q => { q with multiRecordGroup := g })

/-- Reader state after the failed (end-of-valid-log) first block load
of `zeroBlockFile`. -/
def zeroAfter : ReaderState :=
  { file := zeroBlockFile
    cursor := 512
    fileOpen := true
    position := 512
    blockData := List.replicate 496 0
    dataOffset := 0
    currentLSN := 0
    baseLSN := 0
    currentBlock := ⟨0, 0, 0, 0, 0⟩
    lastCheckpoint := none }

/-! # Theorems -/

/-- C4: for every input buffer, the compressed-integer decoder selects
width and value from the first byte: `0x00-0x7F` → 1 byte, value `b0`;
`0x80-0xBF` → 2 bytes, value `((b0 & 0x3F) << 8) | b1`; `0xC0-0xDF` → 3
bytes; `0xE0-0xEF` → 4 bytes; `0xF0-0xF7` → 5 bytes; `0xFF` → 9 bytes
with a big-endian u64 in bytes 1..9; and whenever the buffer is shorter
than the indicated width it reports insufficient data (`bytesRead = 0`)
instead of a value. -/
theorem C4_compressed_integer_decoder (b0 : Nat) (rest : List Nat)
    (hb : b0 ≤ 0xFF) :
    (b0 ≤ 0x7F → parseCompressedUint64 (b0 :: rest) = (b0, 1)) ∧
    (0x80 ≤ b0 → b0 ≤ 0xBF →
      (∀ b1 r, rest = b1 :: r →
        parseCompressedUint64 (b0 :: rest) = (((b0 &&& 0x3F) <<< 8) ||| b1, 2)) ∧
      (rest.length < 1 → parseCompressedUint64 (b0 :: rest) = (0, 0))) ∧
    (0xC0 ≤ b0 → b0 ≤ 0xDF →
      (2 ≤ rest.length → (parseCompressedUint64 (b0 :: rest)).2 = 3) ∧
      (rest.length < 2 → parseCompressedUint64 (b0 :: rest) = (0, 0))) ∧
    (0xE0 ≤ b0 → b0 ≤ 0xEF →
      (3 ≤ rest.length → (parseCompressedUint64 (b0 :: rest)).2 = 4) ∧
      (rest.length < 3 → parseCompressedUint64 (b0 :: rest) = (0, 0))) ∧
    (0xF0 ≤ b0 → b0 ≤ 0xF7 →
      (4 ≤ rest.length → (parseCompressedUint64 (b0 :: rest)).2 = 5) ∧
      (rest.length < 4 → parseCompressedUint64 (b0 :: rest) = (0, 0))) ∧
    (b0 = 0xFF →
      (∀ b1 b2 b3 b4 b5 b6 b7 b8 r,
        rest = b1 :: b2 :: b3 :: b4 :: b5 :: b6 :: b7 :: b8 :: r →
        parseCompressedUint64 (b0 :: rest) =
          (beUint64 b1 b2 b3 b4 b5 b6 b7 b8, 9)) ∧
      (rest.length < 8 → parseCompressedUint64 (b0 :: rest) = (0, 0))) := by
  refine ⟨?_, ?_, ?_, ?_, ?_, ?_⟩
  · intro h
    simp only [parseCompressedUint64]
    rw [if_pos (by omega)]
  · intro h1 h2
    constructor
    · rintro b1 r rfl
      simp only [parseCompressedUint64]
      rw [if_neg (by omega), if_pos (by omega)]
    · intro hlen
      rcases rest with _ | ⟨b1, r⟩
      · simp only [parseCompressedUint64]
        rw [if_neg (by omega), if_pos (by omega)]
      · simp at hlen
  · intro h1 h2
    constructor
    · intro hlen
      rcases rest with _ | ⟨b1, _ | ⟨b2, r⟩⟩ <;> simp at hlen ⊢
      all_goals
        simp only [parseCompressedUint64]
        rw [if_neg (by omega), if_neg (by omega), if_pos (by omega)]
    · intro hlen
      rcases rest with _ | ⟨b1, _ | ⟨b2, r⟩⟩
      · simp only [parseCompressedUint64]
        rw [if_neg (by omega), if_neg (by omega), if_pos (by omega)]
      · simp only [parseCompressedUint64]
        rw [if_neg (by omega), if_neg (by omega), if_pos (by omega)]
      · simp at hlen; omega
  · intro h1 h2
    constructor
    · intro hlen
      rcases rest with _ | ⟨b1, _ | ⟨b2, _ | ⟨b3, r⟩⟩⟩ <;> simp at hlen ⊢
      all_goals
        simp only [parseCompressedUint64]
        rw [if_neg (by omega), if_neg (by omega), if_neg (by omega),
          if_pos (by omega)]
    · intro hlen
      rcases rest with _ | ⟨b1, _ | ⟨b2, _ | ⟨b3, r⟩⟩⟩
      · simp only [parseCompressedUint64]
        rw [if_neg (by omega), if_neg (by omega), if_neg (by omega),
          if_pos (by omega)]
      · simp only [parseCompressedUint64]
        rw [if_neg (by omega), if_neg (by omega), if_neg (by omega),
          if_pos (by omega)]
      · simp only [parseCompressedUint64]
        rw [if_neg (by omega), if_neg (by omega), if_neg (by omega),
          if_pos (by omega)]
      · simp at hlen; omega
  · intro h1 h2
    constructor
    · intro hlen
      rcases rest with _ | ⟨b1, _ | ⟨b2, _ | ⟨b3, _ | ⟨b4, r⟩⟩⟩⟩ <;> simp at hlen ⊢
      all_goals
        simp only [parseCompressedUint64]
        rw [if_neg (by omega), if_neg (by omega), if_neg (by omega),
          if_neg (by omega), if_pos (by omega)]
    · intro hlen
      rcases rest with _ | ⟨b1, _ | ⟨b2, _ | ⟨b3, _ | ⟨b4, r⟩⟩⟩⟩
      case cons.cons.cons.cons => simp at hlen; omega
      all_goals
        simp only [parseCompressedUint64]
        rw [if_neg (by omega), if_neg (by omega), if_neg (by omega),
          if_neg (by omega), if_pos (by omega)]
  · rintro rfl
    constructor
    · rintro b1 b2 b3 b4 b5 b6 b7 b8 r rfl
      simp only [parseCompressedUint64]
      rw [if_neg (by omega), if_neg (by omega), if_neg (by omega),
        if_neg (by omega), if_neg (by omega)]
      simp
    · intro hlen
      rcases rest with _ | ⟨b1, _ | ⟨b2, _ | ⟨b3, _ | ⟨b4, _ | ⟨b5, _ | ⟨b6, _ |
        ⟨b7, _ | ⟨b8, r⟩⟩⟩⟩⟩⟩⟩⟩
      case cons.cons.cons.cons.cons.cons.cons.cons => simp at hlen; omega
      all_goals
        simp only [parseCompressedUint64]
        rw [if_neg (by omega), if_neg (by omega), if_neg (by omega),
          if_neg (by omega), if_neg (by omega)]
        simp

/-- Witness for C4 at `b0 = 0x80`, `rest = [0x80]`. -/
theorem C4_compressed_integer_decoder_witness :
    parseCompressedUint64 [0x80, 0x80] = (((0x80 &&& 0x3F) <<< 8) ||| 0x80, 2) :=
  ((C4_compressed_integer_decoder 0x80 [0x80] (by decide)).2.1
    (by decide) (by decide)).1 0x80 [] rfl

/-! ## Elimination lemmas for the block loader -/

lemma readNextBlock_ok_elim {s s' : ReaderState} (h : readNextBlock s = .ok s') :
    s.cursor + OSFileLogBlockSize ≤ s.file.length ∧
    s'.file = s.file ∧
    s'.cursor = s.cursor + OSFileLogBlockSize ∧
    s'.fileOpen = s.fileOpen ∧
    s'.position = s.position + OSFileLogBlockSize ∧
    s'.dataOffset = 0 ∧
    s'.baseLSN = s.baseLSN ∧
    s'.lastCheckpoint = s.lastCheckpoint ∧
    s'.currentBlock =
      parseBlockHeaderBytes ((s.file.drop s.cursor).take OSFileLogBlockSize) ∧
    s'.currentBlock.dataLen ≠ 0 ∧
    s'.currentLSN = s.currentLSN + s'.currentBlock.dataLen ∧
    s'.blockData.length ≤ LogBlockDataSize := by
  unfold readNextBlock fileRead at h
  simp only [OSFileLogBlockSize, LogBlockHdrSize, LogBlockTrlSize,
    LogBlockDataSize] at h ⊢
  split at h
  · simp at h
  · split at h
    · simp at h
    · rename_i hlen hdl
      injection h with h
      subst h
      have hlen' : ((s.file.drop s.cursor).take 512).length = 512 := by
        simp only [List.length_take, List.length_drop] at hlen ⊢
        omega
      have hfile : s.cursor + 512 ≤ s.file.length := by
        simp only [List.length_take, List.length_drop] at hlen'
        omega
      refine ⟨hfile, rfl, ?_, rfl, rfl, rfl, rfl, rfl, rfl, hdl, rfl, ?_⟩
      · simp [hlen']
      · split
        · split
          · simp only [List.length_drop, List.length_take, List.length_nil]
            omega
          · simp
        · split
          · simp only [List.length_drop, List.length_take, List.length_nil]
            omega
          · simp

lemma readNextBlock_error_elim {s : ReaderState} {e : ReadErr} {s' : ReaderState}
    (h : readNextBlock s = .error (e, s')) :
    s'.file = s.file ∧ s'.fileOpen = s.fileOpen ∧
    s'.blockData = s.blockData ∧ s'.dataOffset = s.dataOffset ∧
    s'.currentLSN = s.currentLSN ∧ s'.baseLSN = s.baseLSN ∧
    s.position ≤ s'.position ∧ s'.position ≤ s.position + OSFileLogBlockSize ∧
    s.cursor ≤ s'.cursor ∧
    (e = .eof ∨ e = .endOfValidLog) ∧
    (e = .eof → s'.file.length ≤ s'.cursor) := by
  unfold readNextBlock fileRead at h
  simp only [OSFileLogBlockSize, LogBlockHdrSize, LogBlockTrlSize] at h ⊢
  split at h
  · rename_i hlen
    simp only [Except.error.injEq, Prod.mk.injEq] at h
    obtain ⟨he, hs⟩ := h
    subst he; subst hs
    simp only [List.length_take, List.length_drop] at hlen
    refine ⟨rfl, rfl, rfl, rfl, rfl, rfl, ?_, ?_, ?_, Or.inl rfl, ?_⟩
    · dsimp only; omega
    · dsimp only; omega
    · dsimp only
      simp only [List.length_take, List.length_drop]
      omega
    · intro _
      dsimp only
      simp only [List.length_take, List.length_drop]
      omega
  · split at h
    · rename_i hlen hdl
      simp only [Except.error.injEq, Prod.mk.injEq] at h
      obtain ⟨he, hs⟩ := h
      subst he; subst hs
      refine ⟨rfl, rfl, rfl, rfl, rfl, rfl, ?_, ?_, ?_, Or.inr rfl, ?_⟩
      · dsimp only; omega
      · dsimp only; omega
      · dsimp only
        simp only [List.length_take, List.length_drop]
        omega
      · intro hcontr; exact absurd hcontr (by simp)
    · exact Except.noConfusion h

/-! ## Concrete-fixture evaluation lemmas

The scenario files are 2-2.5 KB long; whole-list traversal (e.g. by
`decide` on state equality) is avoided by peeling their append structure
with `List.drop_left'` and evaluating only short prefixes. -/

lemma cpBlock_length (no lsn off : Nat) : (cpBlock no lsn off).length = 512 := by
  simp [cpBlock, leBytes8]

lemma c6block_length : c6block.length = 512 := by
  simp [c6block]

lemma scenDFile_length : scenDFile.length = 2048 := by
  simp [scenDFile, cpBlock_length]

lemma comboFile_length : comboFile.length = 2560 := by
  simp [comboFile, scenDFile_length, c6block_length]

lemma scenDFile_drop512 :
    scenDFile.drop 512 =
      cpBlock 7 1000000 100000 ++
        (List.replicate 512 0 ++ cpBlock 9 1200000 120000) := by
  unfold scenDFile
  rw [List.drop_left' (by simp)]

lemma scenDFile_drop1536 : scenDFile.drop 1536 = cpBlock 9 1200000 120000 := by
  unfold scenDFile
  rw [show List.replicate 512 (0:Nat) ++ (cpBlock 7 1000000 100000 ++
      (List.replicate 512 0 ++ cpBlock 9 1200000 120000)) =
    (List.replicate 512 0 ++ cpBlock 7 1000000 100000 ++ List.replicate 512 0) ++
      cpBlock 9 1200000 120000 by simp [List.append_assoc]]
  rw [List.drop_left' (by simp [cpBlock_length])]

lemma comboFile_drop512 :
    comboFile.drop 512 =
      cpBlock 7 1000000 100000 ++
        (List.replicate 512 0 ++ (cpBlock 9 1200000 120000 ++ c6block)) := by
  unfold comboFile scenDFile
  rw [show (List.replicate 512 (0:Nat) ++ (cpBlock 7 1000000 100000 ++
      (List.replicate 512 0 ++ cpBlock 9 1200000 120000))) ++ c6block =
    List.replicate 512 0 ++ (cpBlock 7 1000000 100000 ++
      (List.replicate 512 0 ++ (cpBlock 9 1200000 120000 ++ c6block)))
    by simp [List.append_assoc]]
  rw [List.drop_left' (by simp)]

lemma comboFile_drop1536 :
    comboFile.drop 1536 = cpBlock 9 1200000 120000 ++ c6block := by
  unfold comboFile scenDFile
  rw [show (List.replicate 512 (0:Nat) ++ (cpBlock 7 1000000 100000 ++
      (List.replicate 512 0 ++ cpBlock 9 1200000 120000))) ++ c6block =
    (List.replicate 512 0 ++ cpBlock 7 1000000 100000 ++ List.replicate 512 0) ++
      (cpBlock 9 1200000 120000 ++ c6block) by simp [List.append_assoc]]
  rw [List.drop_left' (by simp [cpBlock_length])]

lemma comboFile_drop2048 : comboFile.drop 2048 = c6block := by
  unfold comboFile
  rw [List.drop_left' scenDFile_length]

lemma parse_scenD_cp1 :
    parseCheckpointBlock scenDFile LogCheckpoint1 = .ok cp1lit := by
  unfold parseCheckpointBlock
  rw [if_neg (by rw [scenDFile_length]; decide)]
  rw [show scenDFile.drop LogCheckpoint1 =
    cpBlock 7 1000000 100000 ++
      (List.replicate 512 0 ++ cpBlock 9 1200000 120000) from scenDFile_drop512]
  decide

lemma parse_scenD_cp2 :
    parseCheckpointBlock scenDFile LogCheckpoint2 = .ok cp2lit := by
  unfold parseCheckpointBlock
  rw [if_neg (by rw [scenDFile_length]; decide)]
  rw [show scenDFile.drop LogCheckpoint2 =
    cpBlock 9 1200000 120000 from scenDFile_drop1536]
  decide

lemma parse_combo_cp1 :
    parseCheckpointBlock comboFile LogCheckpoint1 = .ok cp1lit := by
  unfold parseCheckpointBlock
  rw [if_neg (by rw [comboFile_length]; decide)]
  rw [show comboFile.drop LogCheckpoint1 =
    cpBlock 7 1000000 100000 ++
      (List.replicate 512 0 ++ (cpBlock 9 1200000 120000 ++ c6block))
    from comboFile_drop512]
  decide

lemma parse_combo_cp2 :
    parseCheckpointBlock comboFile LogCheckpoint2 = .ok cp2lit := by
  unfold parseCheckpointBlock
  rw [if_neg (by rw [comboFile_length]; decide)]
  rw [show comboFile.drop LogCheckpoint2 =
    cpBlock 9 1200000 120000 ++ c6block from comboFile_drop1536]
  decide

lemma findLatest_scenD : findLatestCheckpoint scenDFile = .ok cp2lit := by
  unfold findLatestCheckpoint
  rw [parse_scenD_cp1, parse_scenD_cp2]
  decide

lemma findLatest_combo : findLatestCheckpoint comboFile = .ok cp2lit := by
  unfold findLatestCheckpoint
  rw [parse_combo_cp1, parse_combo_cp2]
  decide

lemma readHeader_scenD :
    ReadHeader (openReader scenDFile) =
      .ok (scenDHeaderLit, afterHeaderState scenDFile) := by
  unfold ReadHeader openReader
  dsimp only
  rw [findLatest_scenD]
  rfl

lemma readHeader_combo :
    ReadHeader (openReader comboFile) =
      .ok (scenDHeaderLit, afterHeaderState comboFile) := by
  unfold ReadHeader openReader
  dsimp only
  rw [findLatest_combo]
  rfl

lemma readNextBlock_combo :
    readNextBlock (afterHeaderState comboFile) = .ok comboBlock1Lit := by
  unfold readNextBlock fileRead afterHeaderState
  dsimp only
  rw [show comboFile.drop LogFileHdrSize = c6block from comboFile_drop2048]
  rw [List.take_of_length_le (by rw [c6block_length]; decide)]
  rw [if_neg (by rw [c6block_length]; decide)]
  rfl

lemma consumeBlocks1_combo :
    consumeBlocks 1 (afterHeaderState comboFile) = .ok (comboBlock1Lit, [26]) := by
  unfold consumeBlocks
  rw [readNextBlock_combo]
  dsimp only
  unfold consumeBlocks
  rfl

/-- C1: the claim — the block loader parses `data_length` and
`first_rec_group` big-endian — is false: at a block whose bytes 4..6 are
`[26, 0]` the loader stores 26 (little-endian), not 6656 (big-endian). -/
theorem C1_counterexample :
    ¬ (∀ s s' : ReaderState, readNextBlock s = .ok s' →
        s'.currentBlock.dataLen =
          beUint16At ((s.file.drop s.cursor).take OSFileLogBlockSize) 4 ∧
        s'.currentBlock.firstRecGroup =
          beUint16At ((s.file.drop s.cursor).take OSFileLogBlockSize) 6) := by
  intro h
  have h2 := h (openReader c6block) c6afterBlock (by rfl)
  exact absurd h2.1 (by decide)

/-- C1 (amended): for every block it loads, the MySQL reader parses the
per-block header fields `data_length` (u16 at bytes 4..6) and
`first_rec_group` (u16 at bytes 6..8) as little-endian integers — both
in `readNextBlock` and in `readBlockHeader`. -/
theorem C1_block_header_little_endian (s s1 : ReaderState)
    (t : MySQLLogBlockHeader) (s2 : ReaderState)
    (hb : readNextBlock s = .ok s1)
    (hh : readBlockHeader s = .ok (t, s2)) :
    (s1.currentBlock.dataLen =
        leUint16At ((s.file.drop s.cursor).take OSFileLogBlockSize) 4 ∧
      s1.currentBlock.firstRecGroup =
        leUint16At ((s.file.drop s.cursor).take OSFileLogBlockSize) 6) ∧
    (t.dataLen = leUint16At ((s.file.drop s.cursor).take LogBlockHdrSize) 4 ∧
      t.firstRecGroup =
        leUint16At ((s.file.drop s.cursor).take LogBlockHdrSize) 6) := by
  constructor
  · have hc := (readNextBlock_ok_elim hb).2.2.2.2.2.2.2.2.1
    rw [hc]
    exact ⟨rfl, rfl⟩
  · unfold readBlockHeader fileRead at hh
    simp only [] at hh
    split at hh
    · simp at hh
    · simp only [Except.ok.injEq, Prod.mk.injEq] at hh
      obtain ⟨ht, _⟩ := hh
      subst ht
      exact ⟨rfl, rfl⟩

/-- Witness for C1's amended theorem on the concrete block `c6block`. -/
theorem C1_block_header_little_endian_witness :
    (c6afterBlock.currentBlock.dataLen =
        leUint16At (((openReader c6block).file.drop (openReader c6block).cursor).take
          OSFileLogBlockSize) 4 ∧
      c6afterBlock.currentBlock.firstRecGroup =
        leUint16At (((openReader c6block).file.drop (openReader c6block).cursor).take
          OSFileLogBlockSize) 6) ∧
    (c6hdrStep.1.dataLen =
        leUint16At (((openReader c6block).file.drop (openReader c6block).cursor).take
          LogBlockHdrSize) 4 ∧
      c6hdrStep.1.firstRecGroup =
        leUint16At (((openReader c6block).file.drop (openReader c6block).cursor).take
          LogBlockHdrSize) 6) :=
  C1_block_header_little_endian (openReader c6block) c6afterBlock
    c6hdrStep.1 c6hdrStep.2 (by rfl) (by rfl)

/-- C2: the claim — the LSN cursor is advanced by `data_length - 12` per
block — is false: loading a block with `data_length = 26` advances the
LSN by 26, not 14. -/
theorem C2_counterexample :
    ¬ (∀ s s' : ReaderState, readNextBlock s = .ok s' →
        s'.currentLSN = s.currentLSN + (s'.currentBlock.dataLen - 12)) := by
  intro h
  have h2 := h (openReader c6block) c6afterBlock (by rfl)
  exact absurd h2 (by decide)

lemma consumeBlocks_lsn :
    ∀ (n : Nat) (s s'' : ReaderState) (ls : List Nat),
      consumeBlocks n s = .ok (s'', ls) →
      s''.currentLSN = s.currentLSN + ls.sum := by
  intro n
  induction n with
  | zero =>
    intro s s'' ls h
    unfold consumeBlocks at h
    simp only [Except.ok.injEq, Prod.mk.injEq] at h
    obtain ⟨hs, hl⟩ := h
    subst hs; subst hl
    simp
  | succ n ih =>
    intro s s'' ls h
    unfold consumeBlocks at h
    cases hrb : readNextBlock s with
    | error e => rw [hrb] at h; simp at h
    | ok s' =>
      rw [hrb] at h
      dsimp only at h
      cases hc : consumeBlocks n s' with
      | error e => rw [hc] at h; simp at h
      | ok r =>
        rw [hc] at h
        dsimp only at h
        simp only [Except.ok.injEq, Prod.mk.injEq] at h
        obtain ⟨hs, hl⟩ := h
        subst hs; subst hl
        have hlsn := (readNextBlock_ok_elim hrb).2.2.2.2.2.2.2.2.2.2.1
        have := ih s' r.1 r.2 hc
        simp only [List.sum_cons]
        omega

/-- C2 (amended): for every consumed physical block, the LSN cursor is
incremented by exactly `data_length` (no 12-byte header subtraction):
after `n` blocks the logical position equals the checkpoint LSN plus the
sum of `data_length` over the consumed blocks. -/
theorem C2_logical_offset_increment (s s' : ReaderState)
    (s0 sh : ReaderState) (hdr : RedoLogHeaderM) (cp : MySQLCheckpoint)
    (n : Nat) (s'' : ReaderState) (ls : List Nat)
    (h : readNextBlock s = .ok s')
    (hclean : s0.lastCheckpoint = none)
    (hrh : ReadHeader s0 = .ok (hdr, sh))
    (hcp : sh.lastCheckpoint = some cp)
    (hc : consumeBlocks n sh = .ok (s'', ls)) :
    s'.currentLSN = s.currentLSN + s'.currentBlock.dataLen ∧
    s''.currentLSN = cp.checkpointLSN + ls.sum := by
  refine ⟨(readNextBlock_ok_elim h).2.2.2.2.2.2.2.2.2.2.1, ?_⟩
  have hsum := consumeBlocks_lsn n sh s'' ls hc
  have hseed : sh.currentLSN = cp.checkpointLSN := by
    unfold ReadHeader at hrh
    cases hf : findLatestCheckpoint s0.file with
    | error e =>
      rw [hf] at hrh
      simp only [Except.ok.injEq, Prod.mk.injEq] at hrh
      obtain ⟨_, hs⟩ := hrh
      subst hs
      simp [hclean] at hcp
    | ok cp' =>
      rw [hf] at hrh
      simp only [Except.ok.injEq, Prod.mk.injEq] at hrh
      obtain ⟨_, hs⟩ := hrh
      subst hs
      simp only [Option.some.injEq] at hcp
      subst hcp
      rfl
  rw [hsum, hseed]

/-- Witness for C2's amended theorem: scenario-D checkpoints followed by
one block with `data_length = 26`. -/
theorem C2_logical_offset_increment_witness :
    comboBlock1Lit.currentLSN =
      (afterHeaderState comboFile).currentLSN +
        comboBlock1Lit.currentBlock.dataLen ∧
    comboBlock1Lit.currentLSN = cp2lit.checkpointLSN + [26].sum :=
  C2_logical_offset_increment (afterHeaderState comboFile) comboBlock1Lit
    (openReader comboFile) (afterHeaderState comboFile) scenDHeaderLit cp2lit
    1 comboBlock1Lit [26]
    readNextBlock_combo (by rfl) readHeader_combo (by rfl) consumeBlocks1_combo

/-- C3: the claim — after checkpoint selection the initial file position
for record reading is the checkpoint's `file_offset` clamped to ≥ 2048 —
is false: on a file whose winning checkpoint has offset 120000, the
reader's position after `ReadHeader` is 2048, not 120000. -/
theorem C3_counterexample :
    ¬ (∀ (s : ReaderState) (h : RedoLogHeaderM) (s' : ReaderState)
        (cp : MySQLCheckpoint),
        ReadHeader s = .ok (h, s') → s'.lastCheckpoint = some cp →
        s'.position = max cp.offset LogFileHdrSize) := by
  intro h
  have h2 := h (openReader scenDFile) scenDHeaderLit (afterHeaderState scenDFile)
    cp2lit readHeader_scenD (by rfl)
  exact absurd h2 (by decide)

/-- C3 (amended): `ReadHeader` seeks to the winning checkpoint's offset
clamped to ≥ 2048 only transiently; before returning it always resets
the file position to 2048 (`LogFileHdrSize`), so record reading starts
at file offset 2048 regardless of the checkpoint offset.  The winning
checkpoint still seeds `startLSN` and the LSN cursor. -/
theorem C3_readheader_resets_position (s : ReaderState) (h : RedoLogHeaderM)
    (s' : ReaderState) (hclean : s.lastCheckpoint = none)
    (hr : ReadHeader s = .ok (h, s')) :
    s'.position = LogFileHdrSize ∧ s'.cursor = LogFileHdrSize ∧
    (∀ cp, s'.lastCheckpoint = some cp →
      h.startLSN = cp.checkpointLSN ∧ s'.currentLSN = cp.checkpointLSN) := by
  unfold ReadHeader at hr
  cases hf : findLatestCheckpoint s.file with
  | error e =>
    rw [hf] at hr
    simp only [Except.ok.injEq, Prod.mk.injEq] at hr
    obtain ⟨hh, hs⟩ := hr
    subst hh; subst hs
    refine ⟨rfl, rfl, fun cp hcp => ?_⟩
    simp only [hclean] at hcp
    exact Option.noConfusion hcp
  | ok cp' =>
    rw [hf] at hr
    simp only [Except.ok.injEq, Prod.mk.injEq] at hr
    obtain ⟨hh, hs⟩ := hr
    subst hh; subst hs
    refine ⟨rfl, rfl, fun cp hcp => ?_⟩
    simp only [Option.some.injEq] at hcp
    subst hcp
    exact ⟨rfl, rfl⟩

/-- Witness for C3's amended theorem on the scenario-D file. -/
theorem C3_readheader_resets_position_witness :
    (afterHeaderState scenDFile).position = LogFileHdrSize ∧
    (afterHeaderState scenDFile).cursor = LogFileHdrSize ∧
    (∀ cp, (afterHeaderState scenDFile).lastCheckpoint = some cp →
      scenDHeaderLit.startLSN = cp.checkpointLSN ∧
      (afterHeaderState scenDFile).currentLSN = cp.checkpointLSN) :=
  C3_readheader_resets_position (openReader scenDFile) scenDHeaderLit
    (afterHeaderState scenDFile) (by rfl) readHeader_scenD

/-! ## C7: checkpoint locator -/

lemma parseCheckpointBlock_ok_valid {f : List Nat} {off : Nat}
    {c : MySQLCheckpoint} (h : parseCheckpointBlock f off = .ok c) :
    c.isValid = true ↔ 0 < c.checkpointNo := by
  unfold parseCheckpointBlock at h
  split at h
  · exact Except.noConfusion h
  · injection h with h
    subst h
    simp

lemma parse_zeros_cp1 :
    parseCheckpointBlock zeros2048 LogCheckpoint1 = .ok defaultCheckpoint := by
  unfold parseCheckpointBlock zeros2048
  rw [if_neg (by rw [List.length_replicate]; decide)]
  rw [List.drop_replicate]
  decide

lemma parse_zeros_cp2 :
    parseCheckpointBlock zeros2048 LogCheckpoint2 = .ok defaultCheckpoint := by
  unfold parseCheckpointBlock zeros2048
  rw [if_neg (by rw [List.length_replicate]; decide)]
  rw [List.drop_replicate]
  decide

/-- C7: the checkpoint locator parses the blocks at file offsets 512 and
1536, treats a checkpoint as valid iff its sequence number is positive,
selects the valid checkpoint with the larger sequence number (the valid
one when only one is valid), and with two zeroed checkpoints signals the
no-valid-checkpoint condition, upon which `ReadHeader` falls back to
reading from offset 2048 and continues successfully. -/
theorem C7_checkpoint_selection (file : List Nat) (c1 c2 : MySQLCheckpoint)
    (h1 : parseCheckpointBlock file LogCheckpoint1 = .ok c1)
    (h2 : parseCheckpointBlock file LogCheckpoint2 = .ok c2) :
    (c1.isValid = true ↔ 0 < c1.checkpointNo) ∧
    (c2.isValid = true ↔ 0 < c2.checkpointNo) ∧
    (c1.isValid = true → c2.isValid = true →
      c1.checkpointNo < c2.checkpointNo → findLatestCheckpoint file = .ok c2) ∧
    (c1.isValid = true → c2.isValid = true →
      c2.checkpointNo < c1.checkpointNo → findLatestCheckpoint file = .ok c1) ∧
    (c1.isValid = true → c2.isValid = false →
      findLatestCheckpoint file = .ok c1) ∧
    (c1.isValid = false → c2.isValid = true →
      findLatestCheckpoint file = .ok c2) ∧
    (c1.isValid = false → c2.isValid = false →
      findLatestCheckpoint file = .error "no valid checkpoint found in file header" ∧
      (∀ s : ReaderState, s.file = file → s.lastCheckpoint = none →
        ∃ hdr s', ReadHeader s = .ok (hdr, s') ∧
          s'.position = LogFileHdrSize ∧ s'.cursor = LogFileHdrSize ∧
          s'.currentLSN = LogFileHdrSize ∧ s'.lastCheckpoint = none)) := by
  have hsel : findLatestCheckpoint file =
      (let latest1 : Option MySQLCheckpoint :=
        if c1.isValid then some c1 else none
      let latest2 : Option MySQLCheckpoint :=
        if c2.isValid then
          match latest1 with
          | none => some c2
          | some l => if c2.checkpointNo > l.checkpointNo then some c2 else some l
        else latest1
      match latest2 with
      | some l => .ok l
      | none => .error "no valid checkpoint found in file header") := by
    unfold findLatestCheckpoint
    rw [h1, h2]
  refine ⟨parseCheckpointBlock_ok_valid h1, parseCheckpointBlock_ok_valid h2,
    ?_, ?_, ?_, ?_, ?_⟩
  · intro hv1 hv2 hlt
    rw [hsel]
    simp only [hv1, hv2, if_true]
    rw [if_pos hlt]
  · intro hv1 hv2 hlt
    rw [hsel]
    simp only [hv1, hv2, if_true]
    rw [if_neg (by omega)]
  · intro hv1 hv2
    rw [hsel]
    simp only [hv1, hv2, if_true, Bool.false_eq_true, if_false]
  · intro hv1 hv2
    rw [hsel]
    simp only [hv1, hv2, if_true, Bool.false_eq_true, if_false]
  · intro hv1 hv2
    have herr : findLatestCheckpoint file =
        .error "no valid checkpoint found in file header" := by
      rw [hsel]
      simp only [hv1, hv2, Bool.false_eq_true, if_false]
    refine ⟨herr, fun s hsf hsc => ?_⟩
    refine ⟨{ logGroupID := 1, startLSN := LogFileHdrSize, fileNo := 1,
              lastCheckpoint := 0, format := 2 },
            { s with baseLSN := LogFileHdrSize, currentLSN := LogFileHdrSize,
                     cursor := LogFileHdrSize, position := LogFileHdrSize },
            ?_, rfl, rfl, rfl, hsc⟩
    unfold ReadHeader
    rw [hsf, herr]

/-- Witness for C7 on the scenario-D file (both checkpoints valid,
sequence numbers 7 and 9). -/
theorem C7_checkpoint_selection_witness :
    (cp1lit.isValid = true ↔ 0 < cp1lit.checkpointNo) ∧
    (cp2lit.isValid = true ↔ 0 < cp2lit.checkpointNo) ∧
    (cp1lit.isValid = true → cp2lit.isValid = true →
      cp1lit.checkpointNo < cp2lit.checkpointNo →
      findLatestCheckpoint scenDFile = .ok cp2lit) ∧
    (cp1lit.isValid = true → cp2lit.isValid = true →
      cp2lit.checkpointNo < cp1lit.checkpointNo →
      findLatestCheckpoint scenDFile = .ok cp1lit) ∧
    (cp1lit.isValid = true → cp2lit.isValid = false →
      findLatestCheckpoint scenDFile = .ok cp1lit) ∧
    (cp1lit.isValid = false → cp2lit.isValid = true →
      findLatestCheckpoint scenDFile = .ok cp2lit) ∧
    (cp1lit.isValid = false → cp2lit.isValid = false →
      findLatestCheckpoint scenDFile =
        .error "no valid checkpoint found in file header" ∧
      (∀ s : ReaderState, s.file = scenDFile → s.lastCheckpoint = none →
        ∃ hdr s', ReadHeader s = .ok (hdr, s') ∧
          s'.position = LogFileHdrSize ∧ s'.cursor = LogFileHdrSize ∧
          s'.currentLSN = LogFileHdrSize ∧ s'.lastCheckpoint = none)) :=
  C7_checkpoint_selection scenDFile cp1lit cp2lit parse_scenD_cp1 parse_scenD_cp2

/-! ## C8: byte-write record layout -/

/-- C8: the claim — byte-write records (types 1/2/4/8) are parsed as
`space_id (compressed) | page_no (compressed) | page_offset (u16 BE) |
value (1/2/4/8 bytes)` — is false: on block bytes `[5, 7, 0, 16, 42, …]`
the spec layout gives `space_id = 5` (consuming 5 bytes for kind 1), but
the implementation emits `space_id = 0` (and consumes 6 bytes). -/
theorem C8_counterexample :
    ¬ (∀ (fuel : Nat) (s : ReaderState) (rt : Nat),
        (rt = 1 ∨ rt = 2 ∨ rt = 4 ∨ rt = 8) →
        ∀ out, specByteWriteParse rt (s.blockData.drop s.dataOffset) = some out →
          (parseValidRecord fuel rt s).1.spaceID = out.spaceID ∧
          (parseValidRecord fuel rt s).1.pageNo = out.pageNo ∧
          (parseValidRecord fuel rt s).2.dataOffset =
            s.dataOffset + out.consumed) := by
  intro h
  have h2 := h 0 byteWriteState 1 (Or.inl rfl)
    { spaceID := 5, pageNo := 7, pageOffset := 16, value := [42], consumed := 5 }
    (by decide)
  exact absurd h2.1 (by decide)

/-- C8 (amended): for every byte-write record (type 1, 2, 4 or 8) with
at least 6 data bytes remaining, the parser reads a u16 little-endian
offset and then a u32 little-endian value (4 bytes regardless of the
kind), consumes exactly 6 data bytes, emits the pair in the record's
payload, and leaves `space_id = page_no = 0`. -/
theorem C8_byte_write_parse (fuel : Nat) (s : ReaderState) (rt : Nat)
    (hrt : rt = 1 ∨ rt = 2 ∨ rt = 4 ∨ rt = 8)
    (hlen : s.dataOffset + 6 ≤ s.blockData.length) :
    parseValidRecord fuel rt s =
      (mkGeneric rt 7
        (.byteWrite (leUint16At s.blockData s.dataOffset)
          (leUint32At s.blockData (s.dataOffset + 2))) 0 0
        { s with dataOffset := s.dataOffset + 6 },
       { s with dataOffset := s.dataOffset + 6 }) := by
  rcases hrt with rfl | rfl | rfl | rfl <;>
    (unfold parseValidRecord
     rw [if_pos (by omega), if_pos (by simp)]
     unfold parseNBytes
     rw [if_pos ⟨by omega, hlen⟩])

/-- Witness for C8's amended theorem at the concrete buffer
`[5, 7, 0, 16, 42, 0, 0, 0]`. -/
theorem C8_byte_write_parse_witness :
    parseValidRecord 0 1 byteWriteState =
      (mkGeneric 1 7
        (.byteWrite (leUint16At byteWriteState.blockData byteWriteState.dataOffset)
          (leUint32At byteWriteState.blockData (byteWriteState.dataOffset + 2))) 0 0
        { byteWriteState with dataOffset := byteWriteState.dataOffset + 6 },
       { byteWriteState with dataOffset := byteWriteState.dataOffset + 6 }) :=
  C8_byte_write_parse 0 byteWriteState 1 (Or.inl rfl) (by decide)

/-! ## C10: `IsEOF` is observationally side-effect free -/

/-- C10: `IsEOF` never changes the reader state (on a non-EOF file it
restores the saved position after its one-byte probe; at EOF the probe
does not move the cursor), returns `true` for a never-opened reader,
returns `false` when the cursor is before the end of the file, and a
subsequent `ReadRecord` behaves exactly as if `IsEOF` had never been
called. -/
theorem C10_iseof_frame (s : ReaderState) (fuel : Nat) :
    (IsEOF s).2 = s ∧
    (s.fileOpen = false → (IsEOF s).1 = true) ∧
    (s.fileOpen = true → s.cursor < s.file.length → (IsEOF s).1 = false) ∧
    readRecordFuel fuel (IsEOF s).2 = readRecordFuel fuel s := by
  have hstate : (IsEOF s).2 = s := by
    unfold IsEOF fileRead
    split
    · rfl
    · dsimp only
      split
      · rename_i hempty
        rw [show s.cursor + ((s.file.drop s.cursor).take 1).length = s.cursor by
          rw [hempty]; omega]
      · rfl
  refine ⟨hstate, ?_, ?_, by rw [hstate]⟩
  · intro hopen
    unfold IsEOF
    rw [if_pos hopen]
  · intro hopen hcur
    unfold IsEOF fileRead
    rw [if_neg (by rw [hopen]; simp)]
    dsimp only
    rw [if_neg (by
      simp only [List.length_take, List.length_drop]
      omega)]

/-- Witness for C10 at a fresh `c6block` reader (not at EOF). -/
theorem C10_iseof_frame_witness :
    (IsEOF (openReader c6block)).2 = openReader c6block ∧
    ((openReader c6block).fileOpen = false →
      (IsEOF (openReader c6block)).1 = true) ∧
    ((openReader c6block).fileOpen = true →
      (openReader c6block).cursor < (openReader c6block).file.length →
      (IsEOF (openReader c6block)).1 = false) ∧
    readRecordFuel 1 (IsEOF (openReader c6block)).2 =
      readRecordFuel 1 (openReader c6block) :=
  C10_iseof_frame (openReader c6block) 1

/-! ## C5: MTR grouping pass -/

lemma map_type_group_update (l : List LogRecordM) (g : Nat) :
    (l.map (fun q => { q with multiRecordGroup := g })).map (fun r => r.type) =
      l.map (fun r => r.type) := by
  rw [List.map_map]
  exact rfl

lemma mtrGo_step_end_nil (r : LogRecordM) (rest : List LogRecordM) (gid : Nat)
    (h : r.type = 31) :
    mtrGo (r :: rest) [] gid =
      { r with multiRecordGroup := 0 } :: mtrGo rest [] gid := by
  simp only [mtrGo]
  rw [if_pos h]

lemma mtrGo_step_end_cons (r : LogRecordM) (rest : List LogRecordM)
    (p : LogRecordM) (ps : List LogRecordM) (gid : Nat) (h : r.type = 31) :
    mtrGo (r :: rest) (p :: ps) gid =
      ({ p with multiRecordGroup := gid + 1, isGroupStart := true } ::
        ps.map (fun q => { q with multiRecordGroup := gid + 1 })) ++
      ({ r with multiRecordGroup := gid + 1, isGroupEnd := true } ::
        mtrGo rest [] (gid + 1)) := by
  simp only [mtrGo]
  rw [if_pos h]

lemma mtrGo_step_skip (r : LogRecordM) (rest pending : List LogRecordM)
    (gid : Nat) (h : r.type ≠ 31) :
    mtrGo (r :: rest) pending gid = mtrGo rest (pending ++ [r]) gid := by
  simp only [mtrGo]
  rw [if_neg h]

lemma mtrGo_types :
    ∀ (recs pending : List LogRecordM) (gid : Nat),
      (mtrGo recs pending gid).map (fun r => r.type) =
        pending.map (fun r => r.type) ++ recs.map (fun r => r.type) := by
  intro recs
  induction recs with
  | nil =>
    intro pending gid
    simp only [mtrGo, map_type_group_update, List.map_nil, List.append_nil]
  | cons r rest ih =>
    intro pending gid
    by_cases h : r.type = 31
    · cases pending with
      | nil =>
        rw [mtrGo_step_end_nil r rest gid h]
        simp only [List.map_cons, List.map_nil, List.nil_append]
        rw [ih [] gid]
        simp [h]
      | cons p ps =>
        rw [mtrGo_step_end_cons r rest p ps gid h]
        simp only [List.map_append, List.map_cons, map_type_group_update]
        rw [ih [] (gid + 1)]
        simp [h]
    · rw [mtrGo_step_skip r rest pending gid h, ih]
      simp

lemma mtrGo_close :
    ∀ (seg pending : List LogRecordM) (gid : Nat) (m : LogRecordM)
      (rest : List LogRecordM),
      m.type = 31 → (∀ r ∈ seg, r.type ≠ 31) → pending ++ seg ≠ [] →
      mtrGo (seg ++ m :: rest) pending gid =
        markStart (gid + 1) (pending ++ seg) ++
          ({ m with multiRecordGroup := gid + 1, isGroupEnd := true } ::
            mtrGo rest [] (gid + 1)) := by
  intro seg
  induction seg with
  | nil =>
    intro pending gid m rest hm _ hne
    cases pending with
    | nil => simp at hne
    | cons p ps =>
      simp only [List.nil_append, List.append_nil]
      rw [mtrGo_step_end_cons m rest p ps gid hm]
      rfl
  | cons a seg' ih =>
    intro pending gid m rest hm hseg hne
    have ha : a.type ≠ 31 := hseg a (by simp)
    rw [List.cons_append, mtrGo_step_skip a (seg' ++ m :: rest) pending gid ha]
    rw [ih (pending ++ [a]) gid m rest hm
      (fun r hr => hseg r (by simp [hr])) (by simp)]
    congr 2
    simp

lemma mtrGo_orphan (m : LogRecordM) (rest : List LogRecordM) (gid : Nat)
    (hm : m.type = 31) :
    mtrGo (m :: rest) [] gid =
      { m with multiRecordGroup := 0 } :: mtrGo rest [] gid :=
  mtrGo_step_end_nil m rest gid hm

lemma mtrGo_trailing :
    ∀ (seg pending : List LogRecordM) (gid : Nat),
      (∀ r ∈ seg, r.type ≠ 31) →
      mtrGo seg pending gid =
        (pending ++ seg).map (fun r => { r with multiRecordGroup := 0 }) := by
  intro seg
  induction seg with
  | nil => intro pending gid _; simp [mtrGo]
  | cons a seg' ih =>
    intro pending gid hseg
    have ha : a.type ≠ 31 := hseg a (by simp)
    rw [mtrGo_step_skip a seg' pending gid ha]
    rw [ih (pending ++ [a]) gid (fun r hr => hseg r (by simp [hr]))]
    simp

/-- C5: the grouping pass partitions the record sequence at
`MULTI_REC_END` (type 31) markers: it never reorders or drops records
(the type sequence is preserved); each closed group `pending ++ seg`
terminated by a marker `m` gets the freshly incremented group id, with
only its first record start-flagged and only the marker end-flagged (and
grouping continues after it with the incremented id); an orphan marker
with no in-progress group is preserved with group id 0; records with no
following marker get group id 0.  On kinds
`[1BYTE, 2BYTES, MULTI_REC_END, 4BYTES, REC_INSERT_8027, MULTI_REC_END]`
this puts records 0-2 in group 1 and records 3-5 in group 2. -/
theorem C5_mtr_grouping :
    (∀ recs : List LogRecordM,
      (detectMultiRecordGroups recs).map (fun r => r.type) =
        recs.map (fun r => r.type)) ∧
    (∀ (seg pending : List LogRecordM) (gid : Nat) (m : LogRecordM)
      (rest : List LogRecordM),
      m.type = 31 → (∀ r ∈ seg, r.type ≠ 31) → pending ++ seg ≠ [] →
      mtrGo (seg ++ m :: rest) pending gid =
        markStart (gid + 1) (pending ++ seg) ++
          ({ m with multiRecordGroup := gid + 1, isGroupEnd := true } ::
            mtrGo rest [] (gid + 1))) ∧
    (∀ (m : LogRecordM) (rest : List LogRecordM) (gid : Nat), m.type = 31 →
      mtrGo (m :: rest) [] gid =
        { m with multiRecordGroup := 0 } :: mtrGo rest [] gid) ∧
    (∀ (seg pending : List LogRecordM) (gid : Nat),
      (∀ r ∈ seg, r.type ≠ 31) →
      mtrGo seg pending gid =
        (pending ++ seg).map (fun r => { r with multiRecordGroup := 0 })) ∧
    (detectMultiRecordGroups
        [mkRec 1, mkRec 2, mkRec 31, mkRec 4, mkRec 9, mkRec 31] =
      [{ mkRec 1 with multiRecordGroup := 1, isGroupStart := true },
       { mkRec 2 with multiRecordGroup := 1 },
       { mkRec 31 with multiRecordGroup := 1, isGroupEnd := true },
       { mkRec 4 with multiRecordGroup := 2, isGroupStart := true },
       { mkRec 9 with multiRecordGroup := 2 },
       { mkRec 31 with multiRecordGroup := 2, isGroupEnd := true }]) := by
  refine ⟨?_, mtrGo_close, mtrGo_orphan, mtrGo_trailing, by decide⟩
  intro recs
  unfold detectMultiRecordGroups
  rw [mtrGo_types recs [] 0]
  simp

/-! ## C9: benign-termination classification of the driver loop -/

lemma readRecordFuel_eof_at_end :
    ∀ (fuel : Nat) (s s' : ReaderState),
      readRecordFuel fuel s = .error (.eof, s') → s'.file.length ≤ s'.cursor := by
  intro fuel
  induction fuel with
  | zero =>
    intro s s' h
    simp only [readRecordFuel] at h
    simp at h
  | succ fuel ih =>
    intro s s' h
    simp only [readRecordFuel] at h
    split at h
    · cases hrb : readNextBlock s with
      | error es =>
        rw [hrb] at h
        dsimp only at h
        simp only [Except.error.injEq] at h
        rw [h] at hrb
        exact (readNextBlock_error_elim hrb).2.2.2.2.2.2.2.2.2.2 rfl
      | ok s1 =>
        rw [hrb] at h
        dsimp only at h
        split at h
        · exact Except.noConfusion h
        · exact ih _ _ h
    · split at h
      · exact Except.noConfusion h
      · exact ih _ _ h

lemma readRecordFuel_no_ioErr :
    ∀ (fuel : Nat) (s : ReaderState) (m : String) (s' : ReaderState),
      readRecordFuel fuel s ≠ .error (.ioErr m, s') := by
  intro fuel
  induction fuel with
  | zero =>
    intro s m s' h
    simp only [readRecordFuel] at h
    simp at h
  | succ fuel ih =>
    intro s m s' h
    simp only [readRecordFuel] at h
    split at h
    · cases hrb : readNextBlock s with
      | error es =>
        rw [hrb] at h
        dsimp only at h
        simp only [Except.error.injEq] at h
        rw [h] at hrb
        rcases (readNextBlock_error_elim hrb).2.2.2.2.2.2.2.2.2.1 with he | he <;>
          exact ReadErr.noConfusion he
      | ok s1 =>
        rw [hrb] at h
        dsimp only at h
        split at h
        · exact Except.noConfusion h
        · exact ih _ _ _ h
    · split at h
      · exact Except.noConfusion h
      · exact ih _ _ _ h

lemma isEOF_of_at_end {s : ReaderState} (h : s.file.length ≤ s.cursor) :
    (IsEOF s).1 = true := by
  unfold IsEOF fileRead
  split
  · rfl
  · dsimp only
    rw [if_pos (by simp only [List.length_take, List.length_drop]; omega)]

lemma loadLoop_error_not_benign :
    ∀ (cl fuel : Nat) (s : ReaderState) (acc : List LogRecordM) (e : ReadErr),
      loadLoop fuel cl s acc = .error e →
      e ≠ .eof ∧ e ≠ .endOfValidLog := by
  intro cl
  induction cl with
  | zero =>
    intro fuel s acc e h
    simp only [loadLoop] at h
    exact Except.noConfusion h
  | succ cl ih =>
    intro fuel s acc e h
    simp only [loadLoop] at h
    split at h
    · exact ih _ _ _ _ h
    · rename_i es heq
      obtain ⟨e1, es2⟩ := es
      split at h
      · exact Except.noConfusion h
      · rename_i hcond
        simp only [Except.error.injEq] at h
        subst h
        push_neg at hcond
        refine ⟨?_, hcond.2⟩
        intro he
        subst he
        have hend := readRecordFuel_eof_at_end fuel s es2 heq
        exact hcond.1 (isEOF_of_at_end hend)

/-- C9: the driver loop terminates cleanly (returning the records read
so far) in exactly the three benign situations — reaching the 10,000
record cap, a read error with the reader at physical end of file (which
every `eof` read error entails), and the end-of-valid-log condition
(block `data_length = 0`) — while any other read failure not at EOF is
surfaced as an error; consequently a surfaced error is never `eof` or
`endOfValidLog`, and in the pure file model reads only fail with those
two conditions (never an I/O error). -/
theorem C9_benign_termination (fuel cl : Nat) (s : ReaderState)
    (acc : List LogRecordM) :
    (loadLoop fuel 0 s acc = .ok acc) ∧
    (∀ rs, readRecordFuel fuel s = .ok rs →
      loadLoop fuel (cl + 1) s acc = loadLoop fuel cl rs.2 (acc ++ [rs.1])) ∧
    (∀ s', readRecordFuel fuel s = .error (.eof, s') →
      (IsEOF s').1 = true ∧ loadLoop fuel (cl + 1) s acc = .ok acc) ∧
    (∀ s', readRecordFuel fuel s = .error (.endOfValidLog, s') →
      loadLoop fuel (cl + 1) s acc = .ok acc) ∧
    (∀ e s', readRecordFuel fuel s = .error (e, s') →
      (IsEOF s').1 = false → e ≠ .endOfValidLog →
      loadLoop fuel (cl + 1) s acc = .error e) ∧
    (∀ e, loadLoop fuel cl s acc = .error e →
      e ≠ .eof ∧ e ≠ .endOfValidLog) ∧
    (∀ m s', readRecordFuel fuel s ≠ .error (.ioErr m, s')) := by
  refine ⟨by simp only [loadLoop], ?_, ?_, ?_, ?_,
    fun e h => loadLoop_error_not_benign cl fuel s acc e h,
    readRecordFuel_no_ioErr fuel s⟩
  · intro rs h
    simp only [loadLoop]
    rw [h]
  · intro s' h
    have hend := readRecordFuel_eof_at_end fuel s s' h
    have heof := isEOF_of_at_end hend
    refine ⟨heof, ?_⟩
    simp only [loadLoop]
    rw [h]
    dsimp only
    rw [if_pos (Or.inl heof)]
  · intro s' h
    simp only [loadLoop]
    rw [h]
    dsimp only
    rw [if_pos (Or.inr rfl)]
  · intro e s' h hnoteof hne
    simp only [loadLoop]
    rw [h]
    dsimp only
    rw [if_neg (by simp [hnoteof, hne])]

/-- Witness for C9: the record cap stops cleanly, and a zeroed first
block (`data_length = 0`) stops the loop cleanly with the records read
so far. -/
theorem C9_benign_termination_witness :
    loadLoop 1 0 (openReader zeroBlockFile) [] = .ok [] ∧
    loadLoop 1 1 (openReader zeroBlockFile) [] = .ok [] :=
  ⟨(C9_benign_termination 1 0 (openReader zeroBlockFile) []).1,
   (C9_benign_termination 1 0 (openReader zeroBlockFile) []).2.2.2.1 zeroAfter
     (by rfl)⟩

/-! ## C6: strict LSN monotonicity of the emitted record sequence

Chain of invariant lemmas: every parsing operation keeps
`dataOffset ≤ blockData.length ≤ 496` (`Inv`) and never decreases the
LSN stamp position `mu = position + dataOffset`; the dispatcher's
type-byte consumption and block loads make it strictly increase between
consecutive records. -/

lemma parseCompressedUint64_snd_le (l : List Nat) :
    (parseCompressedUint64 l).2 ≤ l.length := by
  rcases l with _ | ⟨b0, rest⟩
  · simp [parseCompressedUint64]
  · rcases rest with _ | ⟨b1, _ | ⟨b2, _ | ⟨b3, _ | ⟨b4, _ | ⟨b5, _ | ⟨b6, _ |
      ⟨b7, _ | ⟨b8, r⟩⟩⟩⟩⟩⟩⟩⟩ <;>
    · simp only [parseCompressedUint64]
      split_ifs <;> simp [List.length_cons]

lemma scanInBlockAux_elim :
    ∀ (k : Nat) (s : ReaderState) (t : Nat) (s' : ReaderState),
      scanInBlockAux k s = some (t, s') →
      ∃ d, s' = { s with dataOffset := d } ∧
        s.dataOffset < d ∧ d + 1 ≤ s.blockData.length := by
  intro k
  induction k with
  | zero => intro s t s' h; simp [scanInBlockAux] at h
  | succ k ih =>
    intro s t s' h
    simp only [scanInBlockAux] at h
    split at h
    · split at h
      · exact Option.noConfusion h
      · split at h
        · obtain ⟨d, hd, hlt, hle⟩ := ih _ _ _ h
          dsimp only at hlt hle
          exact ⟨d, hd, by omega, hle⟩
        · simp only [Option.some.injEq, Prod.mk.injEq] at h
          obtain ⟨_, hs⟩ := h
          exact ⟨s.dataOffset + 1, hs.symm, by omega, by omega⟩
    · exact Option.noConfusion h

lemma scanInBlock_elim {s : ReaderState} {t : Nat} {s' : ReaderState}
    (h : scanInBlock s = some (t, s')) :
    ∃ d, s' = { s with dataOffset := d } ∧
      s.dataOffset < d ∧ d + 1 ≤ s.blockData.length :=
  scanInBlockAux_elim _ s t s' h

lemma rdabLoop_inv :
    ∀ (fuel remaining : Nat) (acc : List Nat) (s : ReaderState), Inv s →
      (∀ bs s', readDataAcrossBlocksLoop fuel remaining acc s = .ok (bs, s') →
        Inv s' ∧ mu s ≤ mu s') ∧
      (∀ e s', readDataAcrossBlocksLoop fuel remaining acc s = .error (e, s') →
        Inv s' ∧ mu s ≤ mu s') := by
  intro fuel
  induction fuel with
  | zero =>
    intro remaining acc s hInv
    constructor
    · intro bs s' h; simp [readDataAcrossBlocksLoop] at h
    · intro e s' h
      simp only [readDataAcrossBlocksLoop] at h
      simp only [Except.error.injEq, Prod.mk.injEq] at h
      obtain ⟨-, hs⟩ := h
      subst hs
      exact ⟨hInv, le_refl _⟩
  | succ fuel ih =>
    intro remaining acc s hInv
    have hchunkInv : Inv { s with
        dataOffset := (s.dataOffset + min remaining (s.blockData.length - s.dataOffset)) } := by
      unfold Inv at hInv ⊢
      dsimp only
      omega
    have hchunkMu : mu s ≤ mu { s with
        dataOffset := (s.dataOffset + min remaining (s.blockData.length - s.dataOffset)) } := by
      unfold mu
      dsimp only
      omega
    constructor
    · intro bs s' h
      simp only [readDataAcrossBlocksLoop] at h
      split at h
      · simp only [Except.ok.injEq, Prod.mk.injEq] at h
        obtain ⟨-, hs⟩ := h
        subst hs
        exact ⟨hInv, le_refl _⟩
      · split at h
        · cases hrb : readNextBlock s with
          | error es =>
            rw [hrb] at h
            exact Except.noConfusion h
          | ok s1 =>
            rw [hrb] at h
            obtain ⟨-, -, -, -, hpos, hoff, -, -, -, -, -, hlen⟩ :=
              readNextBlock_ok_elim hrb
            have hInv1 : Inv s1 := ⟨by omega, hlen⟩
            have hmu : mu s ≤ mu s1 := by
              unfold mu
              unfold Inv at hInv
              simp only [LogBlockDataSize, OSFileLogBlockSize, LogBlockHdrSize,
                LogBlockTrlSize] at hInv hpos
              omega
            obtain ⟨hInv', hmu'⟩ := (ih remaining acc s1 hInv1).1 bs s' h
            exact ⟨hInv', le_trans hmu hmu'⟩
        · obtain ⟨hInv', hmu'⟩ := (ih _ _ _ hchunkInv).1 bs s' h
          exact ⟨hInv', le_trans hchunkMu hmu'⟩
    · intro e s' h
      simp only [readDataAcrossBlocksLoop] at h
      split at h
      · exact Except.noConfusion h
      · split at h
        · cases hrb : readNextBlock s with
          | error es =>
            rw [hrb] at h
            simp only [Except.error.injEq] at h
            subst h
            obtain ⟨-, -, hbd, hoff, -, -, hpos, -, -, -, -⟩ :=
              readNextBlock_error_elim hrb
            refine ⟨?_, ?_⟩
            · unfold Inv at hInv ⊢
              rw [hbd, hoff]
              exact hInv
            · unfold mu
              rw [hoff]
              omega
          | ok s1 =>
            rw [hrb] at h
            obtain ⟨-, -, -, -, hpos, hoff, -, -, -, -, -, hlen⟩ :=
              readNextBlock_ok_elim hrb
            have hInv1 : Inv s1 := ⟨by omega, hlen⟩
            have hmu : mu s ≤ mu s1 := by
              unfold mu
              unfold Inv at hInv
              simp only [LogBlockDataSize, OSFileLogBlockSize, LogBlockHdrSize,
                LogBlockTrlSize] at hInv hpos
              omega
            obtain ⟨hInv', hmu'⟩ := (ih remaining acc s1 hInv1).2 e s' h
            exact ⟨hInv', le_trans hmu hmu'⟩
        · obtain ⟨hInv', hmu'⟩ := (ih _ _ _ hchunkInv).2 e s' h
          exact ⟨hInv', le_trans hchunkMu hmu'⟩

lemma readDataAcrossBlocks_inv
    {fuel n : Nat} {s : ReaderState} (hInv : Inv s) :
    (∀ bs s', readDataAcrossBlocks fuel n s = .ok (bs, s') →
      Inv s' ∧ mu s ≤ mu s') ∧
    (∀ e s', readDataAcrossBlocks fuel n s = .error (e, s') →
      Inv s' ∧ mu s ≤ mu s') := by
  unfold readDataAcrossBlocks
  split
  · constructor
    · intro bs s' h
      simp only [Except.ok.injEq, Prod.mk.injEq] at h
      obtain ⟨-, hs⟩ := h
      subst hs
      exact ⟨hInv, le_refl _⟩
    · intro e s' h
      exact Except.noConfusion h
  · exact rdabLoop_inv fuel n [] s hInv

lemma advanceFieldDescs_inv :
    ∀ (k : Nat) (s : ReaderState), Inv s →
      Inv (advanceFieldDescs k s) ∧ mu s ≤ mu (advanceFieldDescs k s) := by
  intro k
  induction k with
  | zero => intro s h; exact ⟨h, le_refl _⟩
  | succ k ih =>
    intro s h
    simp only [advanceFieldDescs]
    split
    · rename_i hg
      have h2 : Inv { s with dataOffset := s.dataOffset + 2 } := by
        unfold Inv at h ⊢
        dsimp only
        omega
      obtain ⟨hi, hm⟩ := ih _ h2
      refine ⟨hi, le_trans ?_ hm⟩
      unfold mu
      dsimp only
      omega
    · exact ⟨h, le_refl _⟩

lemma parseIndexInfo8027_inv (s : ReaderState) (hInv : Inv s) :
    Inv (parseIndexInfo8027 s) ∧ mu s ≤ mu (parseIndexInfo8027 s) := by
  have key : ∀ (k : Nat) (st : ReaderState), Inv st → mu s ≤ mu st →
      Inv (advanceFieldDescs k st) ∧ mu s ≤ mu (advanceFieldDescs k st) :=
    fun k st h1 h2 =>
      ⟨(advanceFieldDescs_inv k st h1).1,
       le_trans h2 (advanceFieldDescs_inv k st h1).2⟩
  simp only [parseIndexInfo8027]
  split_ifs with h1 h2 h3 h4 h5 h6 <;>
    first
      | exact ⟨hInv, le_refl _⟩
      | exact key _ _ (by unfold Inv at hInv ⊢; dsimp only at *; omega)
          (by unfold mu; dsimp only at *; omega)

lemma bumpIfLe_inv (k : Nat) (s : ReaderState) (hInv : Inv s) :
    Inv (bumpIfLe k s) ∧ mu s ≤ mu (bumpIfLe k s) := by
  unfold bumpIfLe
  split
  · unfold Inv mu at *
    dsimp only
    omega
  · exact ⟨hInv, le_refl _⟩

lemma advCompressed_inv (s : ReaderState) (hInv : Inv s) :
    Inv (advCompressed s) ∧ mu s ≤ mu (advCompressed s) := by
  have hb := parseCompressedUint64_snd_le (s.blockData.drop s.dataOffset)
  rw [List.length_drop] at hb
  unfold advCompressed
  dsimp only
  split
  · unfold Inv mu at *
    dsimp only
    omega
  · exact ⟨hInv, le_refl _⟩

lemma swallowRead_inv (fuel n : Nat) (s : ReaderState) (hInv : Inv s) :
    Inv (swallowRead fuel n s) ∧ mu s ≤ mu (swallowRead fuel n s) := by
  unfold swallowRead
  cases h : readDataAcrossBlocks fuel n s with
  | ok r => exact (readDataAcrossBlocks_inv hInv).1 r.1 r.2 (by rw [h])
  | error e => exact (readDataAcrossBlocks_inv hInv).2 e.1 e.2 (by rw [h])

set_option maxHeartbeats 1000000 in
lemma parseRecordData8027_inv (fuel : Nat) (s : ReaderState) (hInv : Inv s) :
    Inv (parseRecordData8027 fuel s) ∧
      mu s ≤ mu (parseRecordData8027 fuel s) := by
  obtain ⟨hInv1, hmu1⟩ := bumpIfLe_inv 2 s hInv
  have hb := parseCompressedUint64_snd_le
    ((bumpIfLe 2 s).blockData.drop (bumpIfLe 2 s).dataOffset)
  rw [List.length_drop] at hb
  have hInv2 : Inv { bumpIfLe 2 s with dataOffset := (bumpIfLe 2 s).dataOffset +
      (parseCompressedUint64
        ((bumpIfLe 2 s).blockData.drop (bumpIfLe 2 s).dataOffset)).2 } := by
    unfold Inv at hInv1 ⊢
    dsimp only
    omega
  have hmu2 : mu s ≤ mu { bumpIfLe 2 s with
      dataOffset := (bumpIfLe 2 s).dataOffset +
      (parseCompressedUint64
        ((bumpIfLe 2 s).blockData.drop (bumpIfLe 2 s).dataOffset)).2 } := by
    refine le_trans hmu1 ?_
    unfold mu
    dsimp only
    omega
  unfold parseRecordData8027
  dsimp only
  split
  · exact ⟨hInv1, hmu1⟩
  · obtain ⟨hInvB, hmuB⟩ := bumpIfLe_inv 1 _ hInv2
    obtain ⟨hInvC, hmuC⟩ := advCompressed_inv _ hInvB
    obtain ⟨hInvD, hmuD⟩ := advCompressed_inv _ hInvC
    have hmuS := le_trans hmu2 (le_trans hmuB (le_trans hmuC hmuD))
    split
    · -- payload present: cross-block read with swallowed errors
      split
      · obtain ⟨hI, hM⟩ := swallowRead_inv _ _ _ hInvD
        exact ⟨hI, le_trans hmuS hM⟩
      · obtain ⟨hI, hM⟩ := swallowRead_inv _ _ _ hInv2
        exact ⟨hI, le_trans hmu2 hM⟩
    · -- no payload
      split
      · exact ⟨hInvD, hmuS⟩
      · exact ⟨hInv2, hmu2⟩

lemma parseMLOG_REC_INSERT_8027_inv (fuel : Nat) (s : ReaderState)
    (hInv : Inv s) :
    Inv (parseMLOG_REC_INSERT_8027 fuel s).2 ∧
      mu s ≤ mu (parseMLOG_REC_INSERT_8027 fuel s).2 := by
  have hb1 := parseCompressedUint64_snd_le (s.blockData.drop s.dataOffset)
  rw [List.length_drop] at hb1
  unfold parseMLOG_REC_INSERT_8027
  dsimp only
  split
  · exact ⟨hInv, le_refl _⟩
  · have hInv1 : Inv { s with dataOffset := s.dataOffset +
        (parseCompressedUint64 (s.blockData.drop s.dataOffset)).2 } := by
      unfold Inv at hInv ⊢
      dsimp only
      omega
    have hmu1 : mu s ≤ mu { s with dataOffset := s.dataOffset +
        (parseCompressedUint64 (s.blockData.drop s.dataOffset)).2 } := by
      unfold mu
      dsimp only
      omega
    have hb2 := parseCompressedUint64_snd_le
      (s.blockData.drop (s.dataOffset +
        (parseCompressedUint64 (s.blockData.drop s.dataOffset)).2))
    rw [List.length_drop] at hb2
    split
    · exact ⟨hInv1, hmu1⟩
    · have hInv2 : Inv { s with dataOffset := s.dataOffset +
          (parseCompressedUint64 (s.blockData.drop s.dataOffset)).2 +
          (parseCompressedUint64 (s.blockData.drop (s.dataOffset +
            (parseCompressedUint64 (s.blockData.drop s.dataOffset)).2))).2 } := by
        unfold Inv at hInv ⊢
        dsimp only
        omega
      have hmu2 : mu s ≤ mu { s with dataOffset := s.dataOffset +
          (parseCompressedUint64 (s.blockData.drop s.dataOffset)).2 +
          (parseCompressedUint64 (s.blockData.drop (s.dataOffset +
            (parseCompressedUint64 (s.blockData.drop s.dataOffset)).2))).2 } := by
        unfold mu
        dsimp only
        omega
      obtain ⟨hInv3, hmu3⟩ := parseIndexInfo8027_inv _ hInv2
      obtain ⟨hInv4, hmu4⟩ := parseRecordData8027_inv fuel _ hInv3
      exact ⟨hInv4, le_trans hmu2 (le_trans hmu3 hmu4)⟩

/-- `parseNBytes` preserves the data-window invariant, never moves the
cursor backwards, and stamps the record's LSN with the post-parse
position. -/
lemma parseNBytes_inv (rt : Nat) (s : ReaderState) (hInv : Inv s) :
    Inv (parseNBytes rt s).2 ∧ mu s ≤ mu (parseNBytes rt s).2 ∧
    (parseNBytes rt s).1.lsn = mu (parseNBytes rt s).2 := by
  unfold parseNBytes
  dsimp only
  split_ifs with h
  · refine ⟨?_, ?_, rfl⟩ <;>
      (simp only [Inv, mu] at hInv ⊢; omega)
  · exact ⟨hInv, le_refl _, rfl⟩

/-- `parseDynMeta` preserves the data-window invariant, never moves the
cursor backwards, and stamps the record's LSN with the post-parse
position. -/
lemma parseDynMeta_inv (s : ReaderState) (hInv : Inv s) :
    Inv (parseDynMeta s).2 ∧ mu s ≤ mu (parseDynMeta s).2 ∧
    (parseDynMeta s).1.lsn = mu (parseDynMeta s).2 := by
  have b1 := parseCompressedUint64_snd_le (s.blockData.drop s.dataOffset)
  rw [List.length_drop] at b1
  have b2 := parseCompressedUint64_snd_le
    (s.blockData.drop (s.dataOffset +
      (parseCompressedUint64 (s.blockData.drop s.dataOffset)).2))
  rw [List.length_drop] at b2
  unfold parseDynMeta
  dsimp only
  split_ifs with h1 h2 h3 h4 <;>
    first
      | exact ⟨hInv, le_refl _, rfl⟩
      | (refine ⟨?_, ?_, rfl⟩ <;>
          (simp only [Inv, mu] at hInv ⊢; omega))

/-- `parseUpdDel` preserves the data-window invariant, never moves the
cursor backwards, and stamps the record's LSN with the post-parse
position. -/
lemma parseUpdDel_inv (rt : Nat) (s : ReaderState) (hInv : Inv s) :
    Inv (parseUpdDel rt s).2 ∧ mu s ≤ mu (parseUpdDel rt s).2 ∧
    (parseUpdDel rt s).1.lsn = mu (parseUpdDel rt s).2 := by
  unfold parseUpdDel
  dsimp only
  split_ifs with h1 h2 h3 <;>
    first
      | exact ⟨hInv, le_refl _, rfl⟩
      | (refine ⟨?_, ?_, rfl⟩ <;>
          (simp only [Inv, mu] at hInv ⊢; omega))

/-- `parseMlogString` preserves the data-window invariant, never moves
the cursor backwards, and stamps the record's LSN with the post-parse
position. -/
lemma parseMlogString_inv (rt : Nat) (s : ReaderState) (hInv : Inv s) :
    Inv (parseMlogString rt s).2 ∧ mu s ≤ mu (parseMlogString rt s).2 ∧
    (parseMlogString rt s).1.lsn = mu (parseMlogString rt s).2 := by
  unfold parseMlogString
  dsimp only
  split_ifs with h1 h2 h3 <;>
    first
      | exact ⟨hInv, le_refl _, rfl⟩
      | (refine ⟨?_, ?_, rfl⟩ <;>
          (simp only [Inv, mu] at hInv ⊢; omega))

/-- `parseValidRecord` preserves the data-window invariant, never moves
the cursor backwards, and the record it returns carries
`lsn = position + dataOffset` of the post-parse state. -/
lemma parseValidRecord_inv (fuel rt : Nat) (s : ReaderState) (hInv : Inv s) :
    Inv (parseValidRecord fuel rt s).2 ∧
    mu s ≤ mu (parseValidRecord fuel rt s).2 ∧
    (parseValidRecord fuel rt s).1.lsn = mu (parseValidRecord fuel rt s).2 := by
  unfold parseValidRecord
  dsimp only
  split_ifs with h1 h2 h3 h4 h5
  · exact parseNBytes_inv rt s hInv
  · exact parseDynMeta_inv s hInv
  · obtain ⟨hI, hM⟩ := parseMLOG_REC_INSERT_8027_inv fuel s hInv
    exact ⟨hI, hM, rfl⟩
  · exact parseUpdDel_inv rt s hInv
  · exact parseMlogString_inv rt s hInv
  · exact ⟨hInv, le_refl _, rfl⟩

/-- The `first_rec_group` jump lands inside the data window and never
moves the cursor backwards from a freshly loaded block
(`dataOffset = 0`). -/
lemma mtrJump_facts (s1 : ReaderState) (hInv : Inv s1)
    (hoff : s1.dataOffset = 0) :
    Inv (mtrJump s1) ∧ mu s1 ≤ mu (mtrJump s1) := by
  unfold mtrJump
  dsimp only
  split_ifs with h1 h2
  · constructor
    · simp only [Inv] at hInv ⊢
      omega
    · simp only [mu]
      omega
  · exact ⟨hInv, le_refl _⟩
  · exact ⟨hInv, le_refl _⟩

/-- Every successful `ReadRecord` strictly advances the LSN cursor
`position + dataOffset`, preserves the data-window invariant, and the
returned record's LSN equals the cursor after the read. -/
lemma readRecordFuel_mono :
    ∀ (fuel : Nat) (s : ReaderState) (r : LogRecordM) (s' : ReaderState),
      Inv s → readRecordFuel fuel s = .ok (r, s') →
      Inv s' ∧ mu s < mu s' ∧ r.lsn = mu s' := by
  intro fuel
  induction fuel with
  | zero =>
    intro s r s' _ h
    simp only [readRecordFuel] at h
    exact Except.noConfusion h
  | succ fuel ih =>
    intro s r s' hInv h
    simp only [readRecordFuel] at h
    split at h
    · cases hrb : readNextBlock s with
      | error es =>
        rw [hrb] at h
        dsimp only at h
        exact Except.noConfusion h
      | ok s1 =>
        rw [hrb] at h
        dsimp only at h
        obtain ⟨hfl, hfile, hcur, hopen, hpos, hoff0, hbase, hlcp, hcb, hdl,
          hlsn, hblen⟩ := readNextBlock_ok_elim hrb
        have hInv1 : Inv s1 := by
          simp only [Inv]
          exact ⟨by rw [hoff0]; exact Nat.zero_le _, hblen⟩
        obtain ⟨hInv2, hmu2⟩ := mtrJump_facts s1 hInv1 hoff0
        have hmuS : mu s < mu (mtrJump s1) := by
          have hstep : mu s < mu s1 := by
            simp only [mu]
            have hii := hInv
            simp only [Inv, LogBlockDataSize, OSFileLogBlockSize,
              LogBlockHdrSize, LogBlockTrlSize] at hii
            simp only [OSFileLogBlockSize] at hpos
            omega
          exact lt_of_lt_of_le hstep hmu2
        cases hscan : scanInBlock (mtrJump s1) with
        | some ts =>
          rw [hscan] at h
          dsimp only at h
          injection h with h
          obtain ⟨d, hts2, hdlt, hdle⟩ := scanInBlock_elim hscan
          have hInvts : Inv ts.2 := by
            rw [hts2]
            simp only [Inv] at hInv2 ⊢
            omega
          have hmuts : mu (mtrJump s1) < mu ts.2 := by
            rw [hts2]
            simp only [mu]
            omega
          obtain ⟨hIf, hMf, hLf⟩ := parseValidRecord_inv fuel ts.1 ts.2 hInvts
          rw [h] at hIf hMf hLf
          exact ⟨hIf, lt_of_lt_of_le (lt_trans hmuS hmuts) hMf, hLf⟩
        | none =>
          rw [hscan] at h
          dsimp only at h
          have hInv3 :
              Inv { mtrJump s1 with
                dataOffset := (mtrJump s1).blockData.length } := by
            simp only [Inv] at hInv2 ⊢
            omega
          obtain ⟨hIf, hMf, hLf⟩ := ih _ r s' hInv3 h
          refine ⟨hIf, ?_, hLf⟩
          have hle : mu (mtrJump s1) ≤
              mu { mtrJump s1 with
                dataOffset := (mtrJump s1).blockData.length } := by
            have hii := hInv2
            simp only [Inv] at hii
            simp only [mu]
            omega
          exact lt_of_lt_of_le hmuS (le_trans hle (le_of_lt hMf))
    · cases hscan : scanInBlock s with
      | some ts =>
        rw [hscan] at h
        dsimp only at h
        injection h with h
        obtain ⟨d, hts2, hdlt, hdle⟩ := scanInBlock_elim hscan
        have hInvts : Inv ts.2 := by
          rw [hts2]
          simp only [Inv] at hInv ⊢
          omega
        have hmuts : mu s < mu ts.2 := by
          rw [hts2]
          simp only [mu]
          omega
        obtain ⟨hIf, hMf, hLf⟩ := parseValidRecord_inv fuel ts.1 ts.2 hInvts
        rw [h] at hIf hMf hLf
        exact ⟨hIf, lt_of_lt_of_le hmuts hMf, hLf⟩
      | none =>
        rw [hscan] at h
        dsimp only at h
        have hInv3 : Inv { s with dataOffset := s.blockData.length } := by
          simp only [Inv] at hInv ⊢
          omega
        obtain ⟨hIf, hMf, hLf⟩ := ih _ r s' hInv3 h
        refine ⟨hIf, ?_, hLf⟩
        have hle : mu s ≤ mu { s with dataOffset := s.blockData.length } := by
          have hii := hInv
          simp only [Inv] at hii
          simp only [mu]
          omega
        exact lt_of_le_of_lt hle hMf

/-- C6: for every pair of consecutive records emitted by the MySQL
reader (two successive successful `ReadRecord` calls from any state
satisfying the data-window invariant), the later record's start LSN is
strictly greater than the earlier record's start LSN. -/
theorem C6_lsn_strict_monotonic (fuel1 fuel2 : Nat) (s s1 s2 : ReaderState)
    (r1 r2 : LogRecordM) (hInv : Inv s)
    (h1 : readRecordFuel fuel1 s = .ok (r1, s1))
    (h2 : readRecordFuel fuel2 s1 = .ok (r2, s2)) :
    r1.lsn < r2.lsn := by
  obtain ⟨hI1, hM1, hL1⟩ := readRecordFuel_mono fuel1 s r1 s1 hInv h1
  obtain ⟨_, hM2, hL2⟩ := readRecordFuel_mono fuel2 s1 r2 s2 hI1 h2
  rw [hL1, hL2]
  exact hM2

/-- Witness for C6 on the concrete block `c6block`: the first two
records read from a fresh reader have strictly increasing LSNs. -/
theorem C6_lsn_strict_monotonic_witness :
    c6step1.1.lsn < c6step2.1.lsn :=
  C6_lsn_strict_monotonic 5 5 (openReader c6block) c6step1.2 c6step2.2
    c6step1.1 c6step2.1 (by decide) (by rfl) (by rfl)

end RedoLog
